import Mathlib

/-!
Verification of the avatar behavior-orchestration core of vrm-chat-space.

Each section shallowly embeds one controller module of the source:

* `IdleAnim`  — `src/idleAnimations.js` (idle switch-delay formula)
* `Dispatch`  — `src/menus/actionMenu.js` + the mode controllers'
  activate/deactivate entry points (`randomMenu.js`, `idleLoopMenu.js`)
* `Playback`  — `src/vrmManager.js` (`playClip`, mixer action cache)
* `Blink`     — `src/menus/actions/blinkAction.js` and `autoBlinkManager.js`
* `Walk`      — `src/menus/walkMenu.js` (locomotion controller)
* `Gaze`      — `lookAtPlayerMenu` (body turn + gaze controller)
* `LookDown`  — `src/menus/actions/lookDownAction.js` (neck tilt)

Numeric values that the source manipulates as JS floats are embedded as `ℚ`
where the claims only need field arithmetic, and as `ℝ` where the source
genuinely uses `Math.hypot`/`Math.atan2`/`Math.PI` (locomotion, gaze, neck
tilt); the spec itself states those properties over ideal real arithmetic.
-/

namespace IdleAnim

/-- `IDLE_OVERLAP_SECONDS` in `src/idleAnimations.js`: cross-fade overlap. -/
def IDLE_OVERLAP_SECONDS : ℚ := 1/2

/-- `calculateIdleSwitchDelay(clipDuration)` from `src/idleAnimations.js`.
`clipDuration || 2.9` falls back to 2.9 when the duration is falsy (0). -/
def calculateIdleSwitchDelay (clipDuration : ℚ) : ℚ :=
  let duration := max (if clipDuration = 0 then 29/10 else clipDuration) (3/5)
  let safeOverlap := min IDLE_OVERLAP_SECONDS (max (duration - 1/10) (1/10))
  max (duration - safeOverlap) (1/10)

end IdleAnim

namespace IdleAnim

/-- C3 counterexample: the claim "for every clip duration d > 0 the delay lies
strictly in the open interval (0, d)" fails at the concrete duration
d = 0.05: the returned delay is 0.1, which is not below d. -/
theorem calculateIdleSwitchDelay_small_duration_escapes :
    calculateIdleSwitchDelay (1/20) = 1/10 ∧
      ¬ calculateIdleSwitchDelay (1/20) < 1/20 := by
  constructor <;> norm_num [calculateIdleSwitchDelay, IDLE_OVERLAP_SECONDS]

/-- C3 (amended): for every clip duration d > 0.1s the idle switch delay lies
strictly in the open interval (0, d), and for d = 2.9 with the configured
overlap 0.5 the delay equals 2.4.  (For durations ≤ 0.1s the clamping floor
0.1 of the source escapes the interval, see the counterexample.) -/
theorem calculateIdleSwitchDelay_in_open_interval (d : ℚ) (hd : 1/10 < d) :
    0 < calculateIdleSwitchDelay d ∧ calculateIdleSwitchDelay d < d ∧
      calculateIdleSwitchDelay (29/10) = 12/5 := by
  have hd0 : d ≠ 0 := by
    intro h
    rw [h] at hd
    norm_num at hd
  refine ⟨?_, ?_, by norm_num [calculateIdleSwitchDelay, IDLE_OVERLAP_SECONDS]⟩ <;>
    · simp only [calculateIdleSwitchDelay, IDLE_OVERLAP_SECONDS, if_neg hd0]
      rcases le_total d (3/5) with h | h
      · rw [max_eq_right h]
        norm_num
        try linarith
      · rw [max_eq_left h]
        have h1 : (1:ℚ)/2 ≤ d - 1/10 := by linarith
        have h2 : (1:ℚ)/10 ≤ d - 1/10 := by linarith
        rw [max_eq_left h2, min_eq_left h1]
        have h3 : (1:ℚ)/10 ≤ d - 1/2 := by linarith
        rw [max_eq_left h3]
        linarith

/-- C3 witness: the amended theorem applied at the concrete duration 2.9. -/
theorem calculateIdleSwitchDelay_in_open_interval_witness :
    0 < calculateIdleSwitchDelay (29/10) ∧
      calculateIdleSwitchDelay (29/10) < 29/10 ∧
      calculateIdleSwitchDelay (29/10) = 12/5 :=
  calculateIdleSwitchDelay_in_open_interval (29/10) (by norm_num)

end IdleAnim

namespace Dispatch

/-!
Mode flags of the three cooperating controllers, as mutated by the action
menu (`actionMenu.js`), `randomMenu.js` (`randomState.active`) and
`idleLoopMenu.js` (`idleState.active`).  Only the fields the dispatcher
operations read or write for mode arbitration are tracked; sub-state that
never feeds back into the `active` flags (timers, in-flight guards) is
elided.  Environment outcomes the handlers branch on (is a VRM loaded, did
the DOM lookup succeed, is the camera available, ...) are parameters of the
operations, so every reachable interleaving is covered.
-/

structure St where
  vrm : Bool
  idleActive : Bool
  randomActive : Bool
  lookMenuActive : Bool
  currentAction : String
  lookAtPlayerInProgress : Bool
  deriving Repr, DecidableEq

/-- Page-load state: no VRM, both mode flags clear (`actionState` init). -/
def init : St :=
  { vrm := false, idleActive := false, randomActive := false
    lookMenuActive := false, currentAction := "", lookAtPlayerInProgress := false }

/-- `idleLoopMenu.deactivateIdleLoopMode()` — the `active` flag part. -/
def deactivateIdleLoopMode (s : St) : St := { s with idleActive := false }

/-- `idleLoopMenu.activateIdleLoopMode()` — the `active` flag part. -/
def activateIdleLoopMode (s : St) : St := { s with idleActive := true }

/-- `randomMenu.deactivateRandomMode()` — the `active` flag part. -/
def deactivateRandomMode (s : St) : St := { s with randomActive := false }

/-- `randomMenu.activateRandomMode()` — the `active` flag part. -/
def activateRandomMode (s : St) : St := { s with randomActive := true }

/-- `lookAtPlayerMenu.setMenuActive(active)`. -/
def setMenuActive (active : Bool) (s : St) : St := { s with lookMenuActive := active }

/-- `createIdleAction.execute` (idleAction.js 10-22): no-op without a VRM,
otherwise stops random mode, then starts the idle loop. -/
def idleExecute (s : St) : St :=
  if !s.vrm then s
  else activateIdleLoopMode (deactivateRandomMode s)

/-- `finishActionAndReturnToIdle` (actionMenu.js 48-52). -/
def finishActionAndReturnToIdle (s : St) : St :=
  if s.currentAction = "random" then s else idleExecute s

/-- `executeRandomAction` (actionMenu.js 134-147): no-op without a VRM,
otherwise stops the idle loop and the look-at menu, then starts random mode. -/
def executeRandomAction (s : St) : St :=
  if !s.vrm then s
  else activateRandomMode (setMenuActive false (deactivateIdleLoopMode s))

/-- Environment outcomes an action handler branches on during one dispatch. -/
structure ExecEnv where
  buttonFound : Bool
  inputFound : Bool
  stageOk : Bool
  baseCameraOk : Bool
  frontClose : Bool
  comeHereBusy : Bool
  comeHereFrontBusy : Bool
  deriving Repr, DecidableEq

/-- `executeLookAtPlayerAction` (actionMenu.js 153-175). -/
def executeLookAtPlayerAction (e : ExecEnv) (s : St) : St :=
  if !s.vrm then s
  else
    let s1 := setMenuActive true (deactivateIdleLoopMode (deactivateRandomMode s))
    if e.buttonFound then { s1 with lookAtPlayerInProgress := true } else s1

/-- `executeLookAtPlayerWithNeckAction` (actionMenu.js 183-231). -/
def executeLookAtPlayerWithNeckAction (e : ExecEnv) (s : St) : St :=
  if !s.vrm then s
  else if !e.stageOk then s
  else
    let s1 := deactivateIdleLoopMode (deactivateRandomMode s)
    if !e.baseCameraOk then s1
    else { setMenuActive true s1 with lookAtPlayerInProgress := true }

/-- `executeMoveNeckAction` (actionMenu.js 237-270). -/
def executeMoveNeckAction (e : ExecEnv) (s : St) : St :=
  if !s.vrm then s
  else if !e.inputFound then s
  else
    finishActionAndReturnToIdle
      (setMenuActive false (deactivateIdleLoopMode (deactivateRandomMode s)))

/-- `createComeHereAction.execute` (comeHereAction.js 27-130) — mode-flag part. -/
def comeHereExecute (e : ExecEnv) (s : St) : St :=
  if e.comeHereBusy then s
  else if !s.vrm then s
  else if !e.stageOk then s
  else
    let s1 := deactivateIdleLoopMode (deactivateRandomMode s)
    s1

/-- `createComeHereFrontAction.execute` (comeHereFrontAction.js 41-186):
random mode is stopped first; the idle loop is only stopped when the avatar
actually starts moving (not when the front position is already reached). -/
def comeHereFrontExecute (e : ExecEnv) (s : St) : St :=
  if e.comeHereFrontBusy then s
  else if !s.vrm then s
  else if !e.stageOk then s
  else
    let s1 := deactivateRandomMode s
    if !e.baseCameraOk then s1
    else if e.frontClose then s1
    else deactivateIdleLoopMode s1

/-- The `switch` of `executeAction` (actionMenu.js 275-315). -/
def routeAction (sel : String) (e : ExecEnv) (s : St) : St :=
  if sel = "random" then executeRandomAction s
  else if sel = "comeHere" then comeHereExecute e s
  else if sel = "comeHereFront" then comeHereFrontExecute e s
  else if sel = "idle" then idleExecute s
  else if sel = "lookAtPlayer" then executeLookAtPlayerAction e s
  else if sel = "lookAtPlayerWithNeck" then executeLookAtPlayerWithNeckAction e s
  else if sel = "moveNeck" then executeMoveNeckAction e s
  else s

/-- `executeAction` (actionMenu.js 275-315): records the selected action in
`actionState.currentAction`, then routes.  `wave` and `blink` never touch
the mode flags, so they fall through `routeAction` unchanged. -/
def executeAction (sel : String) (e : ExecEnv) (s : St) : St :=
  if sel = "" then s
  else routeAction sel e { s with currentAction := sel }

/-- A sub-action's completion branch inside `updateAction`: on completion,
return to idle. -/
def condFinish (done : Bool) (s : St) : St :=
  if done then finishActionAndReturnToIdle s else s

/-- `updateAction` (actionMenu.js 325-357) — mode-flag part: each completing
sub-action invokes `finishActionAndReturnToIdle`; the completion outcomes
for this tick arrive as booleans. -/
def updateAction (blinkDone waveDone comeHereDone comeHereFrontDone
    stillTurning : Bool) (s : St) : St :=
  let s4 := condFinish comeHereFrontDone
    (condFinish comeHereDone (condFinish waveDone (condFinish blinkDone s)))
  if s4.lookAtPlayerInProgress && !stillTurning then
    finishActionAndReturnToIdle { s4 with lookAtPlayerInProgress := false }
  else s4

/-- `handleVrmReady` (actionMenu.js 362-366), reached from `main.js` after a
model load: defaults into random (autonomous wander) mode. -/
def handleVrmReady (s : St) : St :=
  executeRandomAction { s with vrm := true }

/-- `VRMManager.clear()` happening before a model swap: the VRM vanishes. -/
def vrmCleared (s : St) : St := { s with vrm := false }

/-- One dispatcher operation, with the environment outcomes it branches on. -/
inductive Op
  | exec (sel : String) (e : ExecEnv)
  | update (blinkDone waveDone comeHereDone comeHereFrontDone stillTurning : Bool)
  | vrmReady
  | vrmGone

/-- Interpretation of one operation. -/
def step (op : Op) (s : St) : St :=
  match op with
  | .exec sel e => executeAction sel e s
  | .update b w c cf t => updateAction b w c cf t s
  | .vrmReady => handleVrmReady s
  | .vrmGone => vrmCleared s

/-- Run a sequence of dispatcher operations from the page-load state. -/
def run (ops : List Op) : St :=
  ops.foldl (fun s op => step op s) init

/-- The mutual-exclusion invariant: the idle-loop `active` flag and the
random-mode `active` flag are never simultaneously true. -/
def Ok (s : St) : Prop :=
  s.idleActive = false ∨ s.randomActive = false

theorem ok_of_random_false {s : St} (h : s.randomActive = false) : Ok s := Or.inr h

theorem ok_of_idle_false {s : St} (h : s.idleActive = false) : Ok s := Or.inl h

theorem idleExecute_ok {s : St} (h : Ok s) : Ok (idleExecute s) := by
  unfold idleExecute activateIdleLoopMode deactivateRandomMode
  split_ifs
  · exact h
  · exact Or.inr rfl

theorem finishActionAndReturnToIdle_ok {s : St} (h : Ok s) :
    Ok (finishActionAndReturnToIdle s) := by
  unfold finishActionAndReturnToIdle
  split_ifs
  · exact h
  · exact idleExecute_ok h

theorem condFinish_ok (done : Bool) {s : St} (h : Ok s) : Ok (condFinish done s) := by
  unfold condFinish
  split_ifs
  · exact finishActionAndReturnToIdle_ok h
  · exact h

theorem executeRandomAction_ok {s : St} (h : Ok s) : Ok (executeRandomAction s) := by
  unfold executeRandomAction activateRandomMode setMenuActive deactivateIdleLoopMode
  split_ifs
  · exact h
  · exact Or.inl rfl

theorem executeLookAtPlayerAction_ok (e : ExecEnv) {s : St} (h : Ok s) :
    Ok (executeLookAtPlayerAction e s) := by
  unfold executeLookAtPlayerAction setMenuActive deactivateIdleLoopMode deactivateRandomMode
  split_ifs
  · exact h
  · exact Or.inr rfl
  · exact Or.inr rfl

theorem executeLookAtPlayerWithNeckAction_ok (e : ExecEnv) {s : St} (h : Ok s) :
    Ok (executeLookAtPlayerWithNeckAction e s) := by
  unfold executeLookAtPlayerWithNeckAction setMenuActive deactivateIdleLoopMode
    deactivateRandomMode
  split_ifs
  · exact h
  · exact h
  · exact Or.inr rfl
  · exact Or.inr rfl

theorem executeMoveNeckAction_ok (e : ExecEnv) {s : St} (h : Ok s) :
    Ok (executeMoveNeckAction e s) := by
  unfold executeMoveNeckAction
  split_ifs
  · exact h
  · exact h
  · exact finishActionAndReturnToIdle_ok (Or.inr rfl)

theorem comeHereExecute_ok (e : ExecEnv) {s : St} (h : Ok s) :
    Ok (comeHereExecute e s) := by
  unfold comeHereExecute deactivateIdleLoopMode deactivateRandomMode
  split_ifs
  · exact h
  · exact h
  · exact h
  · exact Or.inr rfl

theorem comeHereFrontExecute_ok (e : ExecEnv) {s : St} (h : Ok s) :
    Ok (comeHereFrontExecute e s) := by
  unfold comeHereFrontExecute deactivateIdleLoopMode deactivateRandomMode
  split_ifs
  · exact h
  · exact h
  · exact h
  · exact Or.inr rfl
  · exact Or.inr rfl
  · exact Or.inr rfl

theorem routeAction_ok (sel : String) (e : ExecEnv) {s : St} (h : Ok s) :
    Ok (routeAction sel e s) := by
  unfold routeAction
  split_ifs
  · exact executeRandomAction_ok h
  · exact comeHereExecute_ok e h
  · exact comeHereFrontExecute_ok e h
  · exact idleExecute_ok h
  · exact executeLookAtPlayerAction_ok e h
  · exact executeLookAtPlayerWithNeckAction_ok e h
  · exact executeMoveNeckAction_ok e h
  · exact h

theorem executeAction_ok (sel : String) (e : ExecEnv) {s : St} (h : Ok s) :
    Ok (executeAction sel e s) := by
  unfold executeAction
  split_ifs
  · exact h
  · exact routeAction_ok sel e h

theorem updateAction_ok (b w c cf t : Bool) {s : St} (h : Ok s) :
    Ok (updateAction b w c cf t s) := by
  unfold updateAction
  have h4 : Ok (condFinish cf (condFinish c (condFinish w (condFinish b s)))) :=
    condFinish_ok _ (condFinish_ok _ (condFinish_ok _ (condFinish_ok _ h)))
  dsimp only
  split_ifs
  · exact finishActionAndReturnToIdle_ok h4
  · exact h4

theorem handleVrmReady_ok {s : St} (h : Ok s) : Ok (handleVrmReady s) := by
  unfold handleVrmReady
  exact executeRandomAction_ok h

theorem step_ok (op : Op) {s : St} (h : Ok s) : Ok (step op s) := by
  cases op with
  | exec sel e => exact executeAction_ok sel e h
  | update b w c cf t => exact updateAction_ok b w c cf t h
  | vrmReady => exact handleVrmReady_ok h
  | vrmGone => exact h

theorem foldl_step_ok (ops : List Op) {s : St} (h : Ok s) :
    Ok (ops.foldl (fun s op => step op s) s) := by
  induction ops generalizing s with
  | nil => exact h
  | cons op rest ih => exact ih (step_ok op h)

/-- C1: idle-cycle and autonomous-wander modes are mutually exclusive.  For
every sequence of dispatcher operations run from the page-load state, at most
one of the idle-loop `active` flag and the random-mode `active` flag is true
at any tick; moreover `executeRandomAction` on a loaded VRM leaves idle-loop
deactivated and random mode active, and the idle action leaves random mode
deactivated and the idle loop active. -/
theorem dispatcher_mode_mutual_exclusion :
    (∀ ops : List Op, Ok (run ops)) ∧
    (∀ s : St, s.vrm = true →
      (executeRandomAction s).idleActive = false ∧
        (executeRandomAction s).randomActive = true) ∧
    (∀ s : St, s.vrm = true →
      (idleExecute s).randomActive = false ∧ (idleExecute s).idleActive = true) := by
  refine ⟨fun ops => foldl_step_ok ops (Or.inl rfl), fun s hv => ?_, fun s hv => ?_⟩
  · unfold executeRandomAction activateRandomMode setMenuActive deactivateIdleLoopMode
    rw [hv]
    simp
  · unfold idleExecute activateIdleLoopMode deactivateRandomMode
    rw [hv]
    simp

/-- C1 witness: the mutual-exclusion theorem applied at the loaded-VRM state
reached right after `handleVrmReady`, and to a concrete operation sequence. -/
theorem dispatcher_mode_mutual_exclusion_witness :
    Ok (run [Op.vrmReady, Op.exec "idle" ⟨true, true, true, true, false, false, false⟩]) ∧
    ((executeRandomAction { init with vrm := true }).idleActive = false ∧
      (executeRandomAction { init with vrm := true }).randomActive = true) ∧
    ((idleExecute { init with vrm := true }).randomActive = false ∧
      (idleExecute { init with vrm := true }).idleActive = true) :=
  ⟨dispatcher_mode_mutual_exclusion.1 _,
    dispatcher_mode_mutual_exclusion.2.1 _ rfl,
    dispatcher_mode_mutual_exclusion.2.2 _ rfl⟩

end Dispatch

namespace Playback

/-!
`VRMManager.playClip` (`src/vrmManager.js` 78-212) and the slice of the
THREE.js mixer it drives.  A clip is identified by its JS object identity
(`id` field): `mixer.clipAction(clip)` caches one `AnimationAction` per clip
object, and `new THREE.AnimationClip(...)` (the `excludeBones` derivation,
lines 137-141) always allocates a fresh object — modelled by the `nextClipId`
allocator.  Action runtime state is keyed by action id through the `act`
function so that field updates cannot disturb the clip→action cache.
-/

structure Track where
  name : String
  deriving Repr, DecidableEq

/-- A `THREE.AnimationClip` as `playClip` observes it (`userData.sourceFile`
is the only `userData` field read). -/
structure Clip where
  id : ℕ
  name : String
  duration : ℚ
  tracks : List Track
  sourceFile : Option String
  deriving Repr, DecidableEq

/-- The runtime state of one `THREE.AnimationAction`. -/
structure MixerAction where
  time : ℚ
  resets : ℕ
  playing : Bool
  enabled : Bool
  clampWhenFinished : Bool
  loop : Option ℕ
  repetitions : Option ℕ
  deriving Repr, DecidableEq

def MixerAction.initial : MixerAction :=
  { time := 0, resets := 0, playing := false, enabled := false
    clampWhenFinished := false, loop := none, repetitions := none }

/-- The shared `THREE.AnimationMixer`: the per-clip-object action cache
(`bindings`), the per-action runtime state (`act`), and a log of the
`crossFadeFrom` calls issued (from-action, to-action, duration). -/
structure Mixer where
  bindings : List (ℕ × ℕ)
  act : ℕ → MixerAction
  nextActionId : ℕ
  fades : List (ℕ × ℕ × ℚ)

def Mixer.empty : Mixer :=
  { bindings := [], act := fun _ => MixerAction.initial, nextActionId := 0, fades := [] }

/-- `mixer.clipAction(clip)`: the cached action for this clip object, or a
fresh one. -/
def Mixer.clipAction (m : Mixer) (c : Clip) : Mixer × ℕ :=
  match m.bindings.lookup c.id with
  | some aid => (m, aid)
  | none =>
    ({ m with bindings := (c.id, m.nextActionId) :: m.bindings
              nextActionId := m.nextActionId + 1 }, m.nextActionId)

/-- Update one action's runtime state. -/
def Mixer.updateAct (m : Mixer) (aid : ℕ) (f : MixerAction → MixerAction) : Mixer :=
  { m with act := fun i => if i = aid then f (m.act i) else m.act i }

/-- The options bag of `playClip` (fields absent in JS are `none`). -/
structure Options where
  fadeDuration : Option ℚ
  syncWithCurrent : Bool
  loopMode : Option ℕ
  repetitions : Option ℕ
  clampWhenFinished : Bool
  debugLabel : Option String
  excludeBones : List String
  deriving Repr, DecidableEq

/-- The playback fields of `VRMManager`, plus the JS heap's clip-object
allocator (`nextClipId`): `new THREE.AnimationClip` yields an id no existing
clip has. -/
structure MState where
  hasVrm : Bool
  mixer : Option Mixer
  currentAction : Option ℕ
  currentClipLabel : String
  defaultFadeDuration : ℚ
  nextClipId : ℕ

/-- `Math.max(a, b)` (reduction-friendly form of `max` on `ℚ`). -/
def jsMax (a b : ℚ) : ℚ := if a ≤ b then b else a

/-- JS `a || b` on strings-or-absent: a non-empty string wins. -/
def jsOr (a : Option String) (b : String) : String :=
  match a with
  | some x => if x = "" then b else x
  | none => b

/-- The track filter of lines 114-127: drop tracks whose bone name (the part
of the track name before the first dot) is listed in `excludeBones`. -/
def filterTracks (tracks : List Track) (excludeBones : List String) : List Track :=
  tracks.filter fun t => !(excludeBones.contains ((t.name.splitOn ".").headD ""))

/-- Lines 104-145: with a non-empty `excludeBones`, build a fresh derived
clip (new object identity) with the excluded tracks removed; otherwise the
clip itself is used. -/
def deriveClip (s : MState) (clip : Clip) (excludeBones : List String) :
    MState × Clip :=
  if excludeBones.isEmpty then (s, clip)
  else
    ({ s with nextClipId := s.nextClipId + 1 },
      { id := s.nextClipId, name := clip.name ++ "_filtered"
        duration := clip.duration
        tracks := filterTracks clip.tracks excludeBones
        sourceFile := clip.sourceFile })

/-- Lines 155-166: `setLoop` (when a numeric loop mode was given),
`clampWhenFinished`, the optional `syncWith(currentAction)`, then
`enabled = true; reset().play()` on the incoming action. -/
def configureNext (m1 : Mixer) (nextId : ℕ) (cur : Option ℕ) (opts : Options) : Mixer :=
  let m2 :=
    match opts.loopMode with
    | some lm =>
      m1.updateAct nextId fun a =>
        { a with loop := some lm, repetitions := opts.repetitions }
    | none => m1
  let m3 := m2.updateAct nextId fun a =>
    { a with clampWhenFinished := opts.clampWhenFinished }
  let m4 :=
    match cur, opts.syncWithCurrent with
    | some c, true =>
      m3.updateAct nextId fun a => { a with time := (m3.act c).time }
    | _, _ => m3
  m4.updateAct nextId fun a =>
    { a with enabled := true, time := 0, resets := a.resets + 1, playing := true }

/-- Lines 199-207: cross-fade from the previous action over a positive
transition, or stop it cold. -/
def fadeOrStop (m5 : Mixer) (nextId : ℕ) (cur : Option ℕ) (transitionDuration : ℚ) :
    Mixer :=
  match cur with
  | some c =>
    if 0 < transitionDuration then
      { m5 with fades := (c, nextId, transitionDuration) :: m5.fades }
    else
      m5.updateAct c fun a => { a with playing := false }
  | none => m5

/-- `playClip(clip, options)` (vrmManager.js 78-212). -/
def playClip (s : MState) (clip? : Option Clip) (opts : Options) :
    MState × Option ℕ :=
  match clip? with
  | none => (s, none)
  | some clip =>
    if !s.hasVrm then (s, none)
    else
      let s1 : MState :=
        match s.mixer with
        | some _ => s
        | none => { s with mixer := some Mixer.empty }
      let fadeDuration := opts.fadeDuration.getD s1.defaultFadeDuration
      let transitionDuration := jsMax 0 fadeDuration
      let clipName :=
        jsOr opts.debugLabel
          (jsOr clip.sourceFile (if clip.name = "" then "Unnamed VRMA Clip" else clip.name))
      let (s2, processedClip) := deriveClip s1 clip opts.excludeBones
      match s2.mixer with
      | none => (s2, none)
      | some m =>
        let (m1, nextId) := m.clipAction processedClip
        let s3 : MState := { s2 with mixer := some m1 }
        if s3.currentAction = some nextId then
          (s3, some nextId)
        else
          let m5 := configureNext m1 nextId s3.currentAction opts
          let m6 := fadeOrStop m5 nextId s3.currentAction transitionDuration
          ({ s3 with mixer := some m6, currentAction := some nextId
                     currentClipLabel := clipName }, some nextId)

/-- Derived actions created by a run of `playClip`: the mixer's allocation
counter (0 when no mixer exists yet). -/
def mixerActionCount (s : MState) : ℕ :=
  match s.mixer with
  | some m => m.nextActionId
  | none => 0

theorem updateAct_bindings (m : Mixer) (aid : ℕ) (f : MixerAction → MixerAction) :
    (m.updateAct aid f).bindings = m.bindings := rfl

theorem configureNext_bindings (m : Mixer) (nid : ℕ) (cur : Option ℕ) (opts : Options) :
    (configureNext m nid cur opts).bindings = m.bindings := by
  unfold configureNext
  cases opts.loopMode <;> cases cur <;> cases opts.syncWithCurrent <;> rfl

theorem fadeOrStop_bindings (m : Mixer) (nid : ℕ) (cur : Option ℕ) (d : ℚ) :
    (fadeOrStop m nid cur d).bindings = m.bindings := by
  unfold fadeOrStop
  cases cur with
  | none => rfl
  | some c => split_ifs <;> rfl

/-- The no-avatar guard of line 79: nothing happens. -/
theorem playClip_no_vrm (s : MState) (c : Clip) (opts : Options)
    (hv : s.hasVrm = false) : playClip s (some c) opts = (s, none) := by
  simp [playClip, hv]

/-- C9: `playClip` with no avatar loaded or a null clip returns null and
leaves the playback state (current action, current clip label, mixer)
exactly as before the call. -/
theorem playClip_guard_returns_null_unchanged (s : MState) (clip? : Option Clip)
    (opts : Options) (h : s.hasVrm = false ∨ clip? = none) :
    playClip s clip? opts = (s, none) := by
  cases clip? with
  | none => rfl
  | some c =>
    rcases h with h | h
    · exact playClip_no_vrm s c opts h
    · exact absurd h (by simp)

/-- With no excluded bones, `deriveClip` hands back the clip itself. -/
theorem deriveClip_nil (st : MState) (c : Clip) : deriveClip st c [] = (st, c) := by
  simp [deriveClip]

/-- `playClip` early-returns when the cached action for the (underived) clip
is already current (vrmManager.js 151-153). -/
theorem playClip_already_current (c : Clip) (opts : Options) (hb : opts.excludeBones = [])
    (s : MState) (m : Mixer) (nid : ℕ) (hv : s.hasVrm = true) (hm : s.mixer = some m)
    (hlk : m.bindings.lookup c.id = some nid) (hcur : s.currentAction = some nid) :
    playClip s (some c) opts = (s, some nid) := by
  obtain ⟨f1, f2, f3, f4, f5, f6⟩ := s
  simp only at hv hm hcur
  subst hv hm hcur
  simp [playClip, hb, deriveClip_nil, Mixer.clipAction, hlk]

/-- After a successful `playClip` of clip `c` with no excluded bones, the
mixer caches an action for `c` and that action is current. -/
theorem playClip_post (s : MState) (c : Clip) (opts : Options)
    (hb : opts.excludeBones = []) (hv : s.hasVrm = true) :
    ∃ m nid, (playClip s (some c) opts).1.hasVrm = true ∧
      (playClip s (some c) opts).1.mixer = some m ∧
      (playClip s (some c) opts).2 = some nid ∧
      (playClip s (some c) opts).1.currentAction = some nid ∧
      m.bindings.lookup c.id = some nid := by
  obtain ⟨f1, f2, f3, f4, f5, f6⟩ := s
  simp only at hv
  subst hv
  cases f2 with
  | none =>
    by_cases hc : f3 = some 0
    · subst hc
      simp only [playClip, hb, deriveClip_nil, Mixer.clipAction, Mixer.empty,
        List.lookup, Bool.not_true, Bool.false_eq_true, if_false, if_true]
      exact ⟨_, _, trivial, rfl, rfl, rfl, by simp [List.lookup]⟩
    · simp only [playClip, hb, deriveClip_nil, Mixer.clipAction, Mixer.empty,
        List.lookup, Bool.not_true, Bool.false_eq_true, if_false, if_true, hc]
      exact ⟨_, _, trivial, rfl, rfl, rfl,
        by simp [configureNext_bindings, fadeOrStop_bindings, List.lookup]⟩
  | some m0 =>
    cases hl : List.lookup c.id m0.bindings with
    | some aid =>
      by_cases hc : f3 = some aid
      · subst hc
        simp only [playClip, hb, deriveClip_nil, Mixer.clipAction, hl,
          Bool.not_true, Bool.false_eq_true, if_false, if_true]
        exact ⟨_, _, trivial, rfl, rfl, rfl, by simp [hl]⟩
      · simp only [playClip, hb, deriveClip_nil, Mixer.clipAction, hl,
          Bool.not_true, Bool.false_eq_true, if_false, if_true, hc]
        exact ⟨_, _, trivial, rfl, rfl, rfl,
          by simp [configureNext_bindings, fadeOrStop_bindings, hl]⟩
    | none =>
      by_cases hc : f3 = some m0.nextActionId
      · subst hc
        simp only [playClip, hb, deriveClip_nil, Mixer.clipAction, hl,
          Bool.not_true, Bool.false_eq_true, if_false, if_true]
        exact ⟨_, _, trivial, rfl, rfl, rfl, by simp [List.lookup]⟩
      · simp only [playClip, hb, deriveClip_nil, Mixer.clipAction, hl,
          Bool.not_true, Bool.false_eq_true, if_false, if_true, hc]
        exact ⟨_, _, trivial, rfl, rfl, rfl,
          by simp [configureNext_bindings, fadeOrStop_bindings, List.lookup]⟩

/-- C4 (amended): `playClip` is idempotent on the currently playing clip for
every option shape whose resolved clip can be the current one — that is,
with an empty `excludeBones` list: a second identical call is a no-op, it
neither restarts nor resets the action nor changes `currentAction`,
`currentClipLabel` or the mixer.  (With a non-empty `excludeBones` list the
source derives a fresh clip object per call, so the second call can never
resolve to the current action; see the counterexample.) -/
theorem playClip_idempotent_on_current (s : MState) (c : Clip) (opts : Options)
    (hb : opts.excludeBones = []) :
    playClip (playClip s (some c) opts).1 (some c) opts = playClip s (some c) opts := by
  cases hv : s.hasVrm with
  | false =>
    have h1 : playClip s (some c) opts = (s, none) := playClip_no_vrm s c opts hv
    rw [h1]
    exact h1
  | true =>
    obtain ⟨m, nid, h1, h2, h3, h4, h5⟩ := playClip_post s c opts hb hv
    rw [playClip_already_current c opts hb (playClip s (some c) opts).1 m nid h1 h2 h5 h4,
      ← h3]

/-- C4 witness: idempotence at a concrete state, clip and option bag. -/
theorem playClip_idempotent_on_current_witness :
    playClip
      (playClip
        { hasVrm := true, mixer := none, currentAction := none
          currentClipLabel := "", defaultFadeDuration := 7/20, nextClipId := 1 }
        (some { id := 0, name := "Idle2", duration := 29/10
                tracks := [{ name := "J_Bip_C_Hips.position" }], sourceFile := none })
        { fadeDuration := some (7/20), syncWithCurrent := true, loopMode := none
          repetitions := none, clampWhenFinished := false
          debugLabel := some "Idle2.vrma", excludeBones := [] }).1
      (some { id := 0, name := "Idle2", duration := 29/10
              tracks := [{ name := "J_Bip_C_Hips.position" }], sourceFile := none })
      { fadeDuration := some (7/20), syncWithCurrent := true, loopMode := none
        repetitions := none, clampWhenFinished := false
        debugLabel := some "Idle2.vrma", excludeBones := [] } =
    playClip
      { hasVrm := true, mixer := none, currentAction := none
        currentClipLabel := "", defaultFadeDuration := 7/20, nextClipId := 1 }
      (some { id := 0, name := "Idle2", duration := 29/10
              tracks := [{ name := "J_Bip_C_Hips.position" }], sourceFile := none })
      { fadeDuration := some (7/20), syncWithCurrent := true, loopMode := none
        repetitions := none, clampWhenFinished := false
        debugLabel := some "Idle2.vrma", excludeBones := [] } :=
  playClip_idempotent_on_current _ _ _ rfl

/-- C4 counterexample: with a non-empty `excludeBones` list a second
identical `playClip` call is not a no-op.  Each call derives a fresh
filtered clip object (nextClipId 1 then 2), so the mixer allocates a second
action (count 2), and `currentAction` moves from action 0 to the duplicate
action 1 — the second call restarts playback instead of leaving the state
unchanged, falsifying the claim for this option shape. -/
theorem playClip_excludeBones_second_call_restarts :
    let c : Clip :=
      { id := 0, name := "Idle2", duration := 29/10
        tracks := [{ name := "Normalized_J_Bip_C_Head.quaternion" },
                   { name := "J_Bip_C_Hips.position" }]
        sourceFile := none }
    let opts : Options :=
      { fadeDuration := some 1, syncWithCurrent := true, loopMode := none
        repetitions := none, clampWhenFinished := false
        debugLabel := some "Idle2.vrma"
        excludeBones := ["Normalized_J_Bip_C_Head"] }
    let s0 : MState :=
      { hasVrm := true, mixer := none, currentAction := none
        currentClipLabel := "", defaultFadeDuration := 1, nextClipId := 1 }
    let s1 := (playClip s0 (some c) opts).1
    let s2 := (playClip s1 (some c) opts).1
    s1.currentAction = some 0 ∧ s2.currentAction = some 1 ∧
      mixerActionCount s1 = 1 ∧ mixerActionCount s2 = 2 := by
  exact ⟨rfl, rfl, rfl, rfl⟩

/-- C9 witness: the guard theorem applied to a concrete avatar-less state. -/
theorem playClip_guard_returns_null_unchanged_witness :
    playClip
      { hasVrm := false, mixer := none, currentAction := none
        currentClipLabel := "", defaultFadeDuration := 7/20, nextClipId := 0 }
      (some { id := 0, name := "Idle2", duration := 29/10, tracks := [], sourceFile := none })
      { fadeDuration := none, syncWithCurrent := false, loopMode := none
        repetitions := none, clampWhenFinished := false, debugLabel := none
        excludeBones := [] } =
    ({ hasVrm := false, mixer := none, currentAction := none
       currentClipLabel := "", defaultFadeDuration := 7/20, nextClipId := 0 }, none) :=
  playClip_guard_returns_null_unchanged _ _ _ (Or.inl rfl)

end Playback

namespace Blink

/-!
The manual blink action (`blinkAction.js`) and the automatic blink manager
(`autoBlinkManager.js`).  Both drive the scalar `blink` expression value
through a closing → closed → opening cycle; each `update` returns the list
of values written to `expressionManager.setValue("blink", ·)` this tick, in
call order.  `hasVrm`/`hasExpr` say whether `getCurrentVrm()` and its
`expressionManager` are available.  The JS phase strings "closing", "closed"
and "opening" are the three constructors of `Phase`.
-/

inductive Phase
  | closing
  | closed
  | opening
  deriving Repr, DecidableEq

/-- The manual blink state (`blinkAction.js` 214-223). -/
structure Manual where
  inProgress : Bool
  phase : Phase
  elapsed : ℚ
  closeDuration : ℚ
  holdDuration : ℚ
  openDuration : ℚ
  currentValue : ℚ
  deriving Repr, DecidableEq

/-- Module-load state of the manual blink. -/
def Manual.init : Manual :=
  { inProgress := false, phase := .closing, elapsed := 0
    closeDuration := 1/10, holdDuration := 1/20, openDuration := 3/20
    currentValue := 0 }

/-- `createBlinkAction.execute` (blinkAction.js 229-253). -/
def Manual.execute (hasVrm hasExpr : Bool) (m : Manual) : Manual :=
  if m.inProgress then m
  else if !hasVrm then m
  else if !hasExpr then m
  else { m with inProgress := true, phase := .closing, elapsed := 0, currentValue := 0 }

/-- `createBlinkAction.update(delta)` (blinkAction.js 260-309).  Returns the
new state, the written blink values, and whether
`finishActionAndReturnToIdle` was invoked. -/
def Manual.update (hasVrm hasExpr : Bool) (δ : ℚ) (m : Manual) :
    Manual × List ℚ × Bool :=
  if !m.inProgress then (m, [], false)
  else if !(hasVrm && hasExpr) then ({ m with inProgress := false }, [], false)
  else
    let e := m.elapsed + δ
    match m.phase with
    | .closing =>
      let progress := min (e / m.closeDuration) 1
      if 1 ≤ progress then
        ({ m with phase := .closed, elapsed := 0, currentValue := progress },
          [progress], false)
      else
        ({ m with elapsed := e, currentValue := progress }, [progress], false)
    | .closed =>
      if m.holdDuration ≤ e then
        ({ m with phase := .opening, elapsed := 0 }, [1], false)
      else
        ({ m with elapsed := e }, [1], false)
    | .opening =>
      let progress := min (e / m.openDuration) 1
      let v := 1 - progress
      if 1 ≤ progress then
        ({ m with inProgress := false, elapsed := e, currentValue := v }, [v, 0], true)
      else
        ({ m with elapsed := e, currentValue := v }, [v], false)

/-- One blink cycle's sub-state of the auto blink manager
(`autoBlinkManager.js` 13-21). -/
structure AutoCur where
  inProgress : Bool
  phase : Phase
  elapsed : ℚ
  closeDuration : ℚ
  holdDuration : ℚ
  openDuration : ℚ
  currentValue : ℚ
  deriving Repr, DecidableEq

/-- The auto blink manager's state (`autoBlinkManager.js` 8-22). -/
structure Auto where
  enabled : Bool
  nextBlinkTime : ℚ
  minInterval : ℚ
  maxInterval : ℚ
  currentBlink : AutoCur
  deriving Repr, DecidableEq

def Auto.init : Auto :=
  { enabled := true, nextBlinkTime := 5, minInterval := 2, maxInterval := 8
    currentBlink :=
      { inProgress := false, phase := .closing, elapsed := 0
        closeDuration := 1/10, holdDuration := 1/20, openDuration := 3/20
        currentValue := 0 } }

/-- `getRandomBlinkInterval()` (autoBlinkManager.js 29-31): `Math.random()`
arrives as the sample `r ∈ [0, 1)`. -/
def getRandomBlinkInterval (r : ℚ) (a : Auto) : ℚ :=
  a.minInterval + r * (a.maxInterval - a.minInterval)

/-- `startAutoBlink()` (autoBlinkManager.js 37-48). -/
def startAutoBlink (hasVrm hasExpr : Bool) (a : Auto) : Auto :=
  if !(hasVrm && hasExpr) then a
  else
    { a with currentBlink :=
        { a.currentBlink with inProgress := true, phase := .closing
                              elapsed := 0, currentValue := 0 } }

/-- `updateBlinkAnimation(delta)` (autoBlinkManager.js 55-98); on completion
the next interval is drawn with the random sample `r`. -/
def updateBlinkAnimation (hasVrm hasExpr : Bool) (r δ : ℚ) (a : Auto) :
    Auto × List ℚ :=
  if !(hasVrm && hasExpr) then (a, [])
  else
    let b := a.currentBlink
    let e := b.elapsed + δ
    match b.phase with
    | .closing =>
      let progress := min (e / b.closeDuration) 1
      if 1 ≤ progress then
        ({ a with currentBlink :=
            { b with phase := .closed, elapsed := 0, currentValue := progress } },
          [progress])
      else
        ({ a with currentBlink := { b with elapsed := e, currentValue := progress } },
          [progress])
    | .closed =>
      if b.holdDuration ≤ e then
        ({ a with currentBlink := { b with phase := .opening, elapsed := 0 } }, [1])
      else
        ({ a with currentBlink := { b with elapsed := e } }, [1])
    | .opening =>
      let progress := min (e / b.openDuration) 1
      let v := 1 - progress
      if 1 ≤ progress then
        ({ a with nextBlinkTime := getRandomBlinkInterval r a
                  currentBlink :=
                    { b with inProgress := false, elapsed := e, currentValue := v } },
          [v, 0])
      else
        ({ a with currentBlink := { b with elapsed := e, currentValue := v } }, [v])

/-- `update(delta)` of the auto blink manager (autoBlinkManager.js 105-120). -/
def Auto.update (hasVrm hasExpr : Bool) (r δ : ℚ) (a : Auto) : Auto × List ℚ :=
  if !a.enabled then (a, [])
  else if a.currentBlink.inProgress then updateBlinkAnimation hasVrm hasExpr r δ a
  else
    let a1 := { a with nextBlinkTime := a.nextBlinkTime - δ }
    if a1.nextBlinkTime ≤ 0 then (startAutoBlink hasVrm hasExpr a1, [])
    else (a1, [])

/-- The blink fragment of `updateAction` (actionMenu.js 327, 352-356): the
manual blink updates first; the auto manager updates only when the manual
blink is not in progress afterwards. -/
def updateBlinkPart (hasVrm hasExpr : Bool) (r δ : ℚ) (m : Manual) (a : Auto) :
    Manual × Auto × List ℚ :=
  let mu := Manual.update hasVrm hasExpr δ m
  if mu.1.inProgress then (mu.1, a, mu.2.1)
  else
    let au := Auto.update hasVrm hasExpr r δ a
    (mu.1, au.1, mu.2.1 ++ au.2)

/-- Fold `Manual.update` over a tick sequence, collecting all writes. -/
def Manual.runWrites (hasVrm hasExpr : Bool) (ds : List ℚ) (m : Manual) :
    Manual × List ℚ :=
  match ds with
  | [] => (m, [])
  | d :: rest =>
    let mu := Manual.update hasVrm hasExpr d m
    let rec' := Manual.runWrites hasVrm hasExpr rest mu.1
    (rec'.1, mu.2.1 ++ rec'.2)

/-- Fold `Auto.update` over a sequence of (delta, random sample) ticks. -/
def Auto.runWrites (hasVrm hasExpr : Bool) (ps : List (ℚ × ℚ)) (a : Auto) :
    Auto × List ℚ :=
  match ps with
  | [] => (a, [])
  | p :: rest =>
    let au := Auto.update hasVrm hasExpr p.2 p.1 a
    let rec' := Auto.runWrites hasVrm hasExpr rest au.1
    (rec'.1, au.2 ++ rec'.2)

/-- States reachable from module load keep a non-negative phase clock and
the fixed positive phase durations. -/
def Manual.Inv (m : Manual) : Prop :=
  0 ≤ m.elapsed ∧ 0 < m.closeDuration ∧ 0 < m.holdDuration ∧ 0 < m.openDuration

def AutoCur.Inv (b : AutoCur) : Prop :=
  0 ≤ b.elapsed ∧ 0 < b.closeDuration ∧ 0 < b.holdDuration ∧ 0 < b.openDuration

/-- The clamped phase progress `min(elapsed / duration, 1)` sits in [0, 1]. -/
theorem progress_bounds {e c : ℚ} (he : 0 ≤ e) (hc : 0 < c) :
    0 ≤ min (e / c) 1 ∧ min (e / c) 1 ≤ 1 :=
  ⟨le_min (div_nonneg he hc.le) zero_le_one, min_le_right _ _⟩

theorem one_sub_progress_bounds {p : ℚ} (h0 : 0 ≤ p) (h1 : p ≤ 1) :
    0 ≤ 1 - p ∧ 1 - p ≤ 1 := by constructor <;> linarith

/-- Every value one manual-blink tick writes lies in [0, 1]. -/
theorem Manual.update_writes (hv he : Bool) (δ : ℚ) (m : Manual)
    (hm : m.Inv) (hδ : 0 ≤ δ) :
    ∀ v ∈ (Manual.update hv he δ m).2.1, 0 ≤ v ∧ v ≤ 1 := by
  obtain ⟨he0, hc, hh, ho⟩ := hm
  have hE : 0 ≤ m.elapsed + δ := by linarith
  have hcl := progress_bounds hE hc
  have hop := progress_bounds hE ho
  have hv1 := one_sub_progress_bounds hop.1 hop.2
  cases hip : m.inProgress with
  | false => simp [Manual.update, hip]
  | true =>
    cases hve : hv && he with
    | false => simp [Manual.update, hip, hve]
    | true =>
      cases hp : m.phase with
      | closing =>
        simp only [Manual.update, hip, hve, hp, Bool.not_true, Bool.false_eq_true,
          if_false, Bool.not_false, if_true]
        split_ifs <;> simp_all
      | closed =>
        simp only [Manual.update, hip, hve, hp, Bool.not_true, Bool.false_eq_true,
          if_false, Bool.not_false, if_true]
        split_ifs <;> simp_all
      | opening =>
        simp only [Manual.update, hip, hve, hp, Bool.not_true, Bool.false_eq_true,
          if_false, Bool.not_false, if_true]
        split_ifs <;> simp_all

/-- One manual-blink tick preserves the clock/duration invariant. -/
theorem Manual.update_inv (hv he : Bool) (δ : ℚ) (m : Manual)
    (hm : m.Inv) (hδ : 0 ≤ δ) : (Manual.update hv he δ m).1.Inv := by
  obtain ⟨he0, hc, hh, ho⟩ := hm
  have hE : 0 ≤ m.elapsed + δ := by linarith
  cases hip : m.inProgress with
  | false => simpa [Manual.update, hip, Manual.Inv] using ⟨he0, hc, hh, ho⟩
  | true =>
    cases hve : hv && he with
    | false => simpa [Manual.update, hip, hve, Manual.Inv] using ⟨he0, hc, hh, ho⟩
    | true =>
      cases hp : m.phase with
      | closing =>
        simp only [Manual.update, hip, hve, hp, Bool.not_true, Bool.false_eq_true,
          if_false, Bool.not_false, if_true]
        split_ifs <;> exact ⟨by simp [hE], hc, hh, ho⟩
      | closed =>
        simp only [Manual.update, hip, hve, hp, Bool.not_true, Bool.false_eq_true,
          if_false, Bool.not_false, if_true]
        split_ifs <;> exact ⟨by simp [hE], hc, hh, ho⟩
      | opening =>
        simp only [Manual.update, hip, hve, hp, Bool.not_true, Bool.false_eq_true,
          if_false, Bool.not_false, if_true]
        split_ifs <;> exact ⟨by simp [hE], hc, hh, ho⟩

/-- When a manual blink cycle completes (in-progress falls while the
expression manager is available), the final written value is exactly 0. -/
theorem Manual.update_completion_writes_zero (δ : ℚ) (m : Manual)
    (hm : m.Inv) (hip : m.inProgress = true)
    (hdone : (Manual.update true true δ m).1.inProgress = false) :
    ((Manual.update true true δ m).2.1).getLast? = some 0 := by
  obtain ⟨he0, hc, hh, ho⟩ := hm
  cases hp : m.phase with
  | closing =>
    simp only [Manual.update, hip, hp, Bool.not_true, Bool.false_eq_true, if_false,
      Bool.and_self, Bool.not_false, if_true] at hdone ⊢
    split_ifs at hdone
  | closed =>
    simp only [Manual.update, hip, hp, Bool.not_true, Bool.false_eq_true, if_false,
      Bool.and_self, Bool.not_false, if_true] at hdone ⊢
    split_ifs at hdone
  | opening =>
    simp only [Manual.update, hip, hp, Bool.not_true, Bool.false_eq_true, if_false,
      Bool.and_self, Bool.not_false, if_true] at hdone ⊢
    split_ifs at hdone ⊢
    simp

/-- Every value one `updateBlinkAnimation` tick writes lies in [0, 1]. -/
theorem updateBlinkAnimation_writes (hv he : Bool) (r δ : ℚ) (a : Auto)
    (hb : a.currentBlink.Inv) (hδ : 0 ≤ δ) :
    ∀ v ∈ (updateBlinkAnimation hv he r δ a).2, 0 ≤ v ∧ v ≤ 1 := by
  obtain ⟨he0, hc, hh, ho⟩ := hb
  have hE : 0 ≤ a.currentBlink.elapsed + δ := by linarith
  have hcl := progress_bounds hE hc
  have hop := progress_bounds hE ho
  have hv1 := one_sub_progress_bounds hop.1 hop.2
  cases hve : hv && he with
  | false => simp [updateBlinkAnimation, hve]
  | true =>
    cases hp : a.currentBlink.phase with
    | closing =>
      simp only [updateBlinkAnimation, hve, hp, Bool.not_true, Bool.false_eq_true,
        if_false, Bool.not_false, if_true]
      split_ifs <;> simp_all
    | closed =>
      simp only [updateBlinkAnimation, hve, hp, Bool.not_true, Bool.false_eq_true,
        if_false, Bool.not_false, if_true]
      split_ifs <;> simp_all
    | opening =>
      simp only [updateBlinkAnimation, hve, hp, Bool.not_true, Bool.false_eq_true,
        if_false, Bool.not_false, if_true]
      split_ifs <;> simp_all

/-- One `updateBlinkAnimation` tick preserves the cycle invariant. -/
theorem updateBlinkAnimation_inv (hv he : Bool) (r δ : ℚ) (a : Auto)
    (hb : a.currentBlink.Inv) (hδ : 0 ≤ δ) :
    (updateBlinkAnimation hv he r δ a).1.currentBlink.Inv := by
  obtain ⟨he0, hc, hh, ho⟩ := hb
  have hE : 0 ≤ a.currentBlink.elapsed + δ := by linarith
  cases hve : hv && he with
  | false => simpa [updateBlinkAnimation, hve, AutoCur.Inv] using ⟨he0, hc, hh, ho⟩
  | true =>
    cases hp : a.currentBlink.phase with
    | closing =>
      simp only [updateBlinkAnimation, hve, hp, Bool.not_true, Bool.false_eq_true,
        if_false, Bool.not_false, if_true]
      split_ifs <;> exact ⟨by simp [hE], hc, hh, ho⟩
    | closed =>
      simp only [updateBlinkAnimation, hve, hp, Bool.not_true, Bool.false_eq_true,
        if_false, Bool.not_false, if_true]
      split_ifs <;> exact ⟨by simp [hE], hc, hh, ho⟩
    | opening =>
      simp only [updateBlinkAnimation, hve, hp, Bool.not_true, Bool.false_eq_true,
        if_false, Bool.not_false, if_true]
      split_ifs <;> exact ⟨by simp [hE], hc, hh, ho⟩

/-- When an automatic blink cycle completes (with the expression manager
available), the final written value is exactly 0. -/
theorem updateBlinkAnimation_completion_writes_zero (r δ : ℚ) (a : Auto)
    (hb : a.currentBlink.Inv) (hip : a.currentBlink.inProgress = true)
    (hdone : (updateBlinkAnimation true true r δ a).1.currentBlink.inProgress = false) :
    ((updateBlinkAnimation true true r δ a).2).getLast? = some 0 := by
  obtain ⟨he0, hc, hh, ho⟩ := hb
  cases hp : a.currentBlink.phase with
  | closing =>
    simp only [updateBlinkAnimation, hp, Bool.not_true, Bool.false_eq_true, if_false,
      Bool.and_self, Bool.not_false, if_true] at hdone ⊢
    split_ifs at hdone <;> simp_all
  | closed =>
    simp only [updateBlinkAnimation, hp, Bool.not_true, Bool.false_eq_true, if_false,
      Bool.and_self, Bool.not_false, if_true] at hdone ⊢
    split_ifs at hdone <;> simp_all
  | opening =>
    simp only [updateBlinkAnimation, hp, Bool.not_true, Bool.false_eq_true, if_false,
      Bool.and_self, Bool.not_false, if_true] at hdone ⊢
    split_ifs at hdone ⊢ <;> simp_all

/-- Every value one `Auto.update` tick writes lies in [0, 1], and the cycle
invariant is preserved. -/
theorem Auto.update_writes_inv (hv he : Bool) (r δ : ℚ) (a : Auto)
    (hb : a.currentBlink.Inv) (hδ : 0 ≤ δ) :
    (∀ v ∈ (Auto.update hv he r δ a).2, 0 ≤ v ∧ v ≤ 1) ∧
      (Auto.update hv he r δ a).1.currentBlink.Inv := by
  cases hen : a.enabled with
  | false => simpa [Auto.update, hen] using hb
  | true =>
    cases hip : a.currentBlink.inProgress with
    | true =>
      simp only [Auto.update, hen, hip, Bool.not_true, Bool.false_eq_true,
        if_false, if_true]
      exact ⟨updateBlinkAnimation_writes hv he r δ a hb hδ,
        updateBlinkAnimation_inv hv he r δ a hb hδ⟩
    | false =>
      obtain ⟨he0, hc, hh, ho⟩ := hb
      simp only [Auto.update, hen, hip, Bool.not_true, Bool.false_eq_true,
        if_false, if_true]
      split_ifs with ht
      · refine ⟨by simp, ?_⟩
        unfold startAutoBlink
        split_ifs
        · exact ⟨he0, hc, hh, ho⟩
        · exact ⟨le_refl 0, hc, hh, ho⟩
      · exact ⟨by simp, he0, hc, hh, ho⟩


/-- All writes of a manual-blink run over non-negative ticks are in [0, 1]. -/
theorem manual_runWrites_bounded (hv he : Bool) (ds : List ℚ) (m : Manual)
    (hm : m.Inv) (hds : ∀ d ∈ ds, 0 ≤ d) :
    ∀ v ∈ (Manual.runWrites hv he ds m).2, 0 ≤ v ∧ v ≤ 1 := by
  induction ds generalizing m with
  | nil => simp [Manual.runWrites]
  | cons d rest ih =>
    have hd : 0 ≤ d := hds d (by simp)
    have hrest : ∀ x ∈ rest, 0 ≤ x := fun x hx => hds x (by simp [hx])
    have h1 := Manual.update_writes hv he d m hm hd
    have h2 := Manual.update_inv hv he d m hm hd
    simp only [Manual.runWrites, List.mem_append]
    intro v hmem
    rcases hmem with h | h
    · exact h1 v h
    · exact ih _ h2 hrest v h

/-- All writes of an auto-blink run over non-negative ticks are in [0, 1]. -/
theorem auto_runWrites_bounded (hv he : Bool) (ps : List (ℚ × ℚ)) (a : Auto)
    (ha : a.currentBlink.Inv) (hps : ∀ p ∈ ps, 0 ≤ p.1) :
    ∀ v ∈ (Auto.runWrites hv he ps a).2, 0 ≤ v ∧ v ≤ 1 := by
  induction ps generalizing a with
  | nil => simp [Auto.runWrites]
  | cons p rest ih =>
    have hd : 0 ≤ p.1 := hps p (by simp)
    have hrest : ∀ x ∈ rest, 0 ≤ x.1 := fun x hx => hps x (by simp [hx])
    have h1 := Auto.update_writes_inv hv he p.2 p.1 a ha hd
    simp only [Auto.runWrites, List.mem_append]
    intro v hmem
    rcases hmem with h | h
    · exact h1.1 v h
    · exact ih _ h1.2 hrest v h

/-- C10: the eyelid-closure scalar written by both blink controllers stays
within [0, 1] in every phase over every sequence of non-negative tick
deltas, and on the tick where a cycle completes the final written value is
exactly 0 (for both the manual action and the automatic manager). -/
theorem blink_value_always_in_unit_interval :
    (∀ (hasVrm hasExpr : Bool) (ds : List ℚ) (m : Manual), m.Inv →
        (∀ d ∈ ds, 0 ≤ d) →
        ∀ v ∈ (Manual.runWrites hasVrm hasExpr ds m).2, 0 ≤ v ∧ v ≤ 1) ∧
    (∀ (hasVrm hasExpr : Bool) (ps : List (ℚ × ℚ)) (a : Auto), a.currentBlink.Inv →
        (∀ p ∈ ps, 0 ≤ p.1) →
        ∀ v ∈ (Auto.runWrites hasVrm hasExpr ps a).2, 0 ≤ v ∧ v ≤ 1) ∧
    (∀ (δ : ℚ) (m : Manual), m.Inv → m.inProgress = true →
        (Manual.update true true δ m).1.inProgress = false →
        ((Manual.update true true δ m).2.1).getLast? = some 0) ∧
    (∀ (r δ : ℚ) (a : Auto), a.currentBlink.Inv → a.currentBlink.inProgress = true →
        (updateBlinkAnimation true true r δ a).1.currentBlink.inProgress = false →
        ((updateBlinkAnimation true true r δ a).2).getLast? = some 0) :=
  ⟨fun hv he ds m hm hds => manual_runWrites_bounded hv he ds m hm hds,
    fun hv he ps a ha hps => auto_runWrites_bounded hv he ps a ha hps,
    fun δ m hm hip hdone => Manual.update_completion_writes_zero δ m hm hip hdone,
    fun r δ a ha hip hdone =>
      updateBlinkAnimation_completion_writes_zero r δ a ha hip hdone⟩

/-- C10 witness: the interval and completion facts at concrete runs — a full
manual cycle from `execute`, an auto run across a cycle start, and concrete
completing ticks. -/
theorem blink_value_always_in_unit_interval_witness :
    (∀ v ∈ (Manual.runWrites true true [1/20, 1/10, 1/10, 1/5]
        (Manual.execute true true Manual.init)).2, 0 ≤ v ∧ v ≤ 1) ∧
    (∀ v ∈ (Auto.runWrites true true [(5, 1/2), (1/10, 1/2), (1/10, 1/2)]
        Auto.init).2, 0 ≤ v ∧ v ≤ 1) ∧
    ((Manual.update true true (3/20)
        { inProgress := true, phase := .opening, elapsed := 0
          closeDuration := 1/10, holdDuration := 1/20, openDuration := 3/20
          currentValue := 1 }).2.1).getLast? = some 0 ∧
    ((updateBlinkAnimation true true (1/2) (3/20)
        { enabled := true, nextBlinkTime := 0, minInterval := 2, maxInterval := 8
          currentBlink :=
            { inProgress := true, phase := .opening, elapsed := 0
              closeDuration := 1/10, holdDuration := 1/20, openDuration := 3/20
              currentValue := 1 } }).2).getLast? = some 0 := by
  refine ⟨blink_value_always_in_unit_interval.1 true true _ _
      (by norm_num [Manual.execute, Manual.init, Manual.Inv]) (by norm_num),
    blink_value_always_in_unit_interval.2.1 true true _ _
      (by norm_num [Auto.init, AutoCur.Inv]) (by norm_num),
    blink_value_always_in_unit_interval.2.2.1 (3/20) _
      (by norm_num [Manual.Inv]) rfl ?_,
    blink_value_always_in_unit_interval.2.2.2 (1/2) (3/20) _
      (by norm_num [AutoCur.Inv]) rfl ?_⟩
  · norm_num [Manual.update]
  · norm_num [updateBlinkAnimation]

/-- C8: (1) on any tick where the manual blink is still in progress after
its own update, the auto blink manager's update is not invoked — its entire
state (countdown included) is unchanged, so no automatic cycle can start
that tick; (2) on the tick an automatic blink completes, the next interval
is set to `getRandomBlinkInterval`; (3) for every random sample r ∈ [0, 1)
and the configured bounds 2 and 8, the drawn interval lies in [2, 8]. -/
theorem auto_blink_suppressed_while_manual_and_interval :
    (∀ (hasVrm hasExpr : Bool) (r δ : ℚ) (m : Manual) (a : Auto),
        (Manual.update hasVrm hasExpr δ m).1.inProgress = true →
        (updateBlinkPart hasVrm hasExpr r δ m a).2.1 = a) ∧
    (∀ (r δ : ℚ) (a : Auto), a.enabled = true →
        a.currentBlink.inProgress = true →
        a.currentBlink.phase = Phase.opening →
        0 < a.currentBlink.openDuration →
        a.currentBlink.openDuration ≤ a.currentBlink.elapsed + δ →
        (Auto.update true true r δ a).1.nextBlinkTime = getRandomBlinkInterval r a) ∧
    (∀ (r : ℚ) (a : Auto), 0 ≤ r → r < 1 → a.minInterval = 2 → a.maxInterval = 8 →
        2 ≤ getRandomBlinkInterval r a ∧ getRandomBlinkInterval r a ≤ 8) := by
  refine ⟨?_, ?_, ?_⟩
  · intro hv he r δ m a h
    simp [updateBlinkPart, h]
  · intro r δ a hen hip hp ho hreach
    have h1 : (1:ℚ) ≤ (a.currentBlink.elapsed + δ) / a.currentBlink.openDuration :=
      (one_le_div ho).mpr hreach
    have hmin : (1:ℚ) ≤ min ((a.currentBlink.elapsed + δ) / a.currentBlink.openDuration) 1 :=
      le_min h1 le_rfl
    simp only [Auto.update, updateBlinkAnimation, hen, hip, hp, Bool.not_true,
      Bool.false_eq_true, if_false, if_true, Bool.and_self, Bool.not_false]
    rw [if_pos hmin]
  · intro r a hr0 hr1 hmin hmax
    unfold getRandomBlinkInterval
    rw [hmin, hmax]
    constructor <;> nlinarith

/-- C8 witness: the three parts at concrete states — a still-closing manual
blink suppressing the auto update, a completing automatic blink, and the
interval drawn at sample r = 1/2. -/
theorem auto_blink_suppressed_while_manual_and_interval_witness :
    ((updateBlinkPart true true (1/2) 0
        { inProgress := true, phase := .closed, elapsed := 0
          closeDuration := 1/10, holdDuration := 1/20, openDuration := 3/20
          currentValue := 1 }
        Auto.init).2.1 = Auto.init) ∧
    ((Auto.update true true (1/2) (3/20)
        { enabled := true, nextBlinkTime := 0, minInterval := 2, maxInterval := 8
          currentBlink :=
            { inProgress := true, phase := .opening, elapsed := 0
              closeDuration := 1/10, holdDuration := 1/20, openDuration := 3/20
              currentValue := 1 } }).1.nextBlinkTime =
      getRandomBlinkInterval (1/2)
        { enabled := true, nextBlinkTime := 0, minInterval := 2, maxInterval := 8
          currentBlink :=
            { inProgress := true, phase := .opening, elapsed := 0
              closeDuration := 1/10, holdDuration := 1/20, openDuration := 3/20
              currentValue := 1 } }) ∧
    (2 ≤ getRandomBlinkInterval (1/2) Auto.init ∧
      getRandomBlinkInterval (1/2) Auto.init ≤ 8) :=
  ⟨auto_blink_suppressed_while_manual_and_interval.1 true true (1/2) 0 _ _
      (by norm_num [Manual.update]),
    auto_blink_suppressed_while_manual_and_interval.2.1 (1/2) (3/20) _
      rfl rfl rfl (by norm_num) (by norm_num),
    auto_blink_suppressed_while_manual_and_interval.2.2 (1/2) Auto.init
      (by norm_num) (by norm_num) rfl rfl⟩

end Blink

namespace JsMath

/-!
Real-number embeddings of the JS / THREE.MathUtils primitives the
locomotion and gaze controllers use.  JS floats are idealised as `ℝ`.
-/

noncomputable section

/-- `Number.EPSILON`. -/
def numberEpsilon : ℝ := 1 / 2 ^ 52

/-- JS truncation toward zero (`Math.trunc`, also the rounding of `%`). -/
def truncR (x : ℝ) : ℤ := if 0 ≤ x then ⌊x⌋ else ⌈x⌉

/-- The JS remainder operator `n % m` (truncated division remainder). -/
def jsFmod (n m : ℝ) : ℝ := n - m * truncR (n / m)

/-- `THREE.MathUtils.euclideanModulo(n, m) = ((n % m) + m) % m`. -/
def euclideanModulo (n m : ℝ) : ℝ := jsFmod (jsFmod n m + m) m

/-- `normalizeRadians` as defined identically in `walkMenu.js`,
`actionMenu.js` and the look-at menu: wrap into (-π, π]. -/
def normalizeRadians (angle : ℝ) : ℝ :=
  euclideanModulo (angle + Real.pi) (Real.pi * 2) - Real.pi

/-- `Math.atan2(y, x)`. -/
def jsAtan2 (y x : ℝ) : ℝ :=
  if 0 < x then Real.arctan (y / x)
  else if x < 0 then
    (if 0 ≤ y then Real.arctan (y / x) + Real.pi else Real.arctan (y / x) - Real.pi)
  else
    (if 0 < y then Real.pi / 2 else if y < 0 then -(Real.pi / 2) else 0)

/-- `THREE.MathUtils.smoothstep(x, low, high)`. -/
def smoothstep (x low high : ℝ) : ℝ :=
  if x ≤ low then 0
  else if high ≤ x then 1
  else
    let t := (x - low) / (high - low)
    t * t * (3 - 2 * t)

/-- `THREE.MathUtils.lerp(a, b, t)`. -/
def lerp (a b t : ℝ) : ℝ := a + (b - a) * t

/-- `THREE.MathUtils.clamp(v, lo, hi) = Math.max(lo, Math.min(hi, v))`. -/
def clampR (v lo hi : ℝ) : ℝ := max lo (min hi v)

/-- `THREE.MathUtils.degToRad`. -/
def degToRad (d : ℝ) : ℝ := d * (Real.pi / 180)

/-- `THREE.MathUtils.radToDeg`. -/
def radToDeg (r : ℝ) : ℝ := r * (180 / Real.pi)

end

end JsMath

namespace Walk

/-!
The locomotion controller `createWalkMenu` (`src/menus/walkMenu.js`).  The
avatar's scene transform (`vrm.scene.position` / `.rotation.y`) is the
`vrm` field; the caller-supplied status sink is modelled by the
`hasStatusSetter` flag plus the `emitted` log of messages (newest first,
with fixed placeholder texts standing for the factory-produced strings);
the asynchronous walk-clip resolution outcome arrives as the `clipOk`
argument of `beginMoveTo`.
-/

open JsMath

noncomputable section

/-- `TURN_THRESHOLD = degToRad(120)`. -/
def TURN_THRESHOLD : ℝ := degToRad 120

def TURN_MIN_DURATION : ℝ := 7/20

def TURN_MAX_DURATION : ℝ := 4/5

def TURN_DURATION_PER_RAD : ℝ := 7/20

/-- The nested `turnState` record. -/
structure TurnState where
  active : Bool
  startAngle : ℝ
  targetAngle : ℝ
  duration : ℝ
  elapsed : ℝ

/-- The avatar's scene transform, as the walk controller reads/writes it. -/
structure Vrm where
  posX : ℝ
  posY : ℝ
  posZ : ℝ
  rotY : ℝ

/-- The options bag of `beginMoveTo`. -/
structure MoveOptions where
  hasStatusSetter : Bool
  hasMovingMessageFactory : Bool
  hasTurningMessageFactory : Bool
  arrivalMessage : Option String
  preparingMessage : Option String
  preserveAnimation : Bool
  hasOnNoVrm : Bool

/-- The `walkState` record (walkMenu.js 24-43) plus the avatar transform and
the observable effects (status log, `stopAnimation` call). -/
structure WalkState where
  loading : Bool
  moving : Bool
  targetX : ℝ
  targetZ : ℝ
  speed : ℝ
  stopDistance : ℝ
  posX : ℝ
  posY : ℝ
  posZ : ℝ
  turn : TurnState
  hasStatusSetter : Bool
  hasMovingMessageFactory : Bool
  hasTurningMessageFactory : Bool
  arrivalMessage : String
  preserveAnimationOnFinish : Bool
  vrm : Option Vrm
  emitted : List String
  animationStopped : Bool

/-- `applyLogicalPosition()`: copy the logical position onto the scene. -/
def applyLogicalPosition (s : WalkState) : WalkState :=
  match s.vrm with
  | none => s
  | some v => { s with vrm := some { v with posX := s.posX, posY := s.posY, posZ := s.posZ } }

/-- `beginTurnTowards(desiredAngle)` (walkMenu.js 60-84). -/
def beginTurnTowards (desiredAngle : ℝ) (s : WalkState) : WalkState × Bool :=
  match s.vrm with
  | none => ({ s with turn := { s.turn with active := false } }, false)
  | some v =>
    let currentAngle := normalizeRadians v.rotY
    let delta := normalizeRadians (desiredAngle - currentAngle)
    if |delta| < TURN_THRESHOLD then
      ({ s with turn := { s.turn with active := false, elapsed := 0 } }, false)
    else
      let duration := clampR (|delta| * TURN_DURATION_PER_RAD)
        TURN_MIN_DURATION TURN_MAX_DURATION
      ({ s with turn :=
          { active := true, startAngle := currentAngle
            targetAngle := currentAngle + delta, duration := duration, elapsed := 0 } },
        true)

/-- `prepareTurnForCurrentTarget()` (walkMenu.js 86-98). -/
def prepareTurnForCurrentTarget (s : WalkState) : WalkState :=
  let dx := s.targetX - s.posX
  let dz := s.targetZ - s.posZ
  if dx ^ 2 + dz ^ 2 ≤ 1 / 10000 then
    { s with turn := { s.turn with active := false, elapsed := 0 } }
  else
    (beginTurnTowards (jsAtan2 dx dz) s).1

/-- `advanceTurn(delta)` (walkMenu.js 100-127); `true` means the turn is
over (or was never active). -/
def advanceTurn (δ : ℝ) (s : WalkState) : WalkState × Bool :=
  if s.turn.active = false then (s, true)
  else
    match s.vrm with
    | none => ({ s with turn := { s.turn with active := false } }, true)
    | some v =>
      let elapsed := s.turn.elapsed + δ
      let progress := min (elapsed / max s.turn.duration numberEpsilon) 1
      let eased := smoothstep progress 0 1
      let nextAngle := lerp s.turn.startAngle s.turn.targetAngle eased
      let s1 := { s with turn := { s.turn with elapsed := elapsed }
                         vrm := some { v with rotY := nextAngle } }
      if 1 ≤ progress then
        ({ s1 with turn := { s1.turn with active := false } }, true)
      else
        (s1, false)

/-- `finishWalking(statusMessage, options)` (walkMenu.js 134-157). -/
def finishWalking (msg? : Option String) (preserveAnimation setterArg : Bool)
    (s : WalkState) : WalkState :=
  let s1 := { s with moving := false }
  let s2 := if preserveAnimation then s1 else { s1 with animationStopped := true }
  let s3 := { s2 with turn := { s2.turn with active := false, elapsed := 0 } }
  let setter := setterArg || s.hasStatusSetter
  let s4 :=
    match msg? with
    | some msg => if setter then { s3 with emitted := msg :: s3.emitted } else s3
    | none => s3
  { s4 with hasStatusSetter := false, hasMovingMessageFactory := false
            hasTurningMessageFactory := false, arrivalMessage := ""
            preserveAnimationOnFinish := false }

/-- The movement half of `updateWalk` (walkMenu.js 268-302): snap-and-finish
inside the stop distance, else advance along the direction of travel. -/
def movementStep (δ : ℝ) (s : WalkState) : WalkState :=
  let dx := s.targetX - s.posX
  let dz := s.targetZ - s.posZ
  let d := Real.sqrt (dx ^ 2 + dz ^ 2)
  if d ≤ s.stopDistance then
    let s1 := applyLogicalPosition { s with posX := s.targetX, posZ := s.targetZ }
    finishWalking (some s1.arrivalMessage) s1.preserveAnimationOnFinish
      s1.hasStatusSetter s1
  else
    let dirX := dx / d
    let dirZ := dz / d
    let move := min d (s.speed * δ)
    let s1 := applyLogicalPosition
      { s with posX := s.posX + dirX * move, posZ := s.posZ + dirZ * move }
    match s1.vrm with
    | some v => { s1 with vrm := some { v with rotY := jsAtan2 dirX dirZ } }
    | none => s1

/-- Lines 263-265: after the turn resolves, emit the moving message when a
status setter and a moving-message factory are present. -/
def emitMovingMsg (s : WalkState) : WalkState :=
  if s.hasStatusSetter && s.hasMovingMessageFactory then
    { s with emitted := "moving-status" :: s.emitted }
  else s

/-- `updateWalk(delta)` (walkMenu.js 246-303). -/
def updateWalk (δ : ℝ) (s : WalkState) : WalkState :=
  match s.vrm with
  | none => s
  | some _ =>
    let s0 := applyLogicalPosition s
    if s0.moving = false then s0
    else if s0.turn.active then
      let au := advanceTurn δ s0
      if au.2 = false then au.1
      else movementStep δ (emitMovingMsg au.1)
    else
      movementStep δ s0

/-- Lines 178-186 of `beginMoveTo`: raise the loading flag and install the
caller-supplied sink, message factories, arrival message and
preserve-animation wish. -/
def moveRequestState (opts : MoveOptions) (s : WalkState) : WalkState :=
  { s with loading := true
           hasStatusSetter := opts.hasStatusSetter
           hasMovingMessageFactory := opts.hasMovingMessageFactory
           hasTurningMessageFactory := opts.hasTurningMessageFactory
           arrivalMessage := opts.arrivalMessage.getD "default-arrival"
           preserveAnimationOnFinish := opts.preserveAnimation }

/-- Lines 188-190: emit the preparing message when given and a sink exists. -/
def emitPreparing (opts : MoveOptions) (s : WalkState) : WalkState :=
  match opts.preparingMessage with
  | some msg => if opts.hasStatusSetter then { s with emitted := msg :: s.emitted } else s
  | none => s

/-- Lines 205-207: record the target and raise the moving flag. -/
def startMoving (x z : ℝ) (s : WalkState) : WalkState :=
  { s with targetX := x, targetZ := z, moving := true }

/-- Lines 224-229: emit the turning/moving start message when its factory
and the sink are present. -/
def emitMoveStart (s : WalkState) : WalkState :=
  if s.hasStatusSetter &&
      (if s.turn.active then s.hasTurningMessageFactory
       else s.hasMovingMessageFactory) then
    { s with emitted := "move-start-status" :: s.emitted }
  else s

/-- Line 234: emit the walk-error message when a sink is present. -/
def emitWalkError (s : WalkState) : WalkState :=
  if s.hasStatusSetter then { s with emitted := "walk-error-status" :: s.emitted }
  else s

/-- `beginMoveTo(x, z, moveOptions)` (walkMenu.js 166-240).  Returns the new
state, the success flag, and whether `onNoVrm` was invoked.  `clipOk` is the
outcome of the async walk-clip resolution (manifest lookup + clip load). -/
def beginMoveTo (x z : ℝ) (opts : MoveOptions) (clipOk : Bool) (s : WalkState) :
    WalkState × Bool × Bool :=
  if s.loading || s.moving then (s, false, false)
  else
    match s.vrm with
    | none => (s, false, opts.hasOnNoVrm)
    | some _ =>
      let s2 := emitPreparing opts (moveRequestState opts s)
      if clipOk then
        let s5 := emitMoveStart (prepareTurnForCurrentTarget (startMoving x z s2))
        ({ s5 with loading := false }, true, false)
      else
        ({ emitWalkError s2 with loading := false }, false, false)

/-- `isMoving()`. -/
def isMoving (s : WalkState) : Bool := s.moving

/-- `isLoading()`. -/
def isLoading (s : WalkState) : Bool := s.loading

/-- Remaining planar distance to the move target (the `Math.hypot` of
`updateWalk`). -/
def dist (s : WalkState) : ℝ :=
  Real.sqrt ((s.targetX - s.posX) ^ 2 + (s.targetZ - s.posZ) ^ 2)

/-- The avatar has arrived: logical position equals the target exactly and
`isMoving()` is false. -/
def ArrivedAt (s : WalkState) (x z : ℝ) : Prop :=
  s.posX = x ∧ s.posZ = z ∧ s.moving = false

/-- The tuple of walk parameters that every tick leaves untouched. -/
def core (s : WalkState) : ℝ × ℝ × ℝ × ℝ :=
  (s.targetX, s.targetZ, s.speed, s.stopDistance)

end

theorem beginMoveTo_busy (x z : ℝ) (opts : MoveOptions) (clipOk : Bool)
    (s : WalkState) (h : s.loading = true ∨ s.moving = true) :
    beginMoveTo x z opts clipOk s = (s, false, false) := by
  unfold beginMoveTo
  rcases h with h | h <;> simp [h]

theorem beginMoveTo_noVrm (x z : ℝ) (opts : MoveOptions) (clipOk : Bool)
    (s : WalkState) (hl : s.loading = false) (hm : s.moving = false)
    (hv : s.vrm = none) :
    beginMoveTo x z opts clipOk s = (s, false, opts.hasOnNoVrm) := by
  unfold beginMoveTo
  simp [hl, hm, hv]

/-- C6 (amended): `beginMoveTo` fails fast on its preconditions.  If the
walk state is already moving or loading it returns false with the entire
state (target, logical position, flags, turn state, status log) unchanged
and without invoking `onNoVrm`; if no avatar is loaded it returns false,
leaves the state unchanged, and invokes the supplied `onNoVrm` callback
(and only that) — in neither case does `beginMoveTo` itself emit a status
message. -/
theorem beginMoveTo_precondition_failures :
    (∀ (x z : ℝ) (opts : MoveOptions) (clipOk : Bool) (s : WalkState),
      s.loading = true ∨ s.moving = true →
      beginMoveTo x z opts clipOk s = (s, false, false)) ∧
    (∀ (x z : ℝ) (opts : MoveOptions) (clipOk : Bool) (s : WalkState),
      s.loading = false → s.moving = false → s.vrm = none →
      beginMoveTo x z opts clipOk s = (s, false, opts.hasOnNoVrm)) :=
  ⟨fun x z opts clipOk s h => beginMoveTo_busy x z opts clipOk s h,
    fun x z opts clipOk s hl hm hv => beginMoveTo_noVrm x z opts clipOk s hl hm hv⟩

/-- C6 counterexample: the claim "in each precondition-failure case the
failure is reported via the status sink" is false.  At this concrete
already-moving state, with a status sink supplied in the options,
`beginMoveTo` returns false and the emitted-message log is left empty:
nothing is reported. -/
theorem beginMoveTo_busy_reports_nothing :
    beginMoveTo 1 1
      { hasStatusSetter := true, hasMovingMessageFactory := true
        hasTurningMessageFactory := true, arrivalMessage := some "arrived"
        preparingMessage := some "preparing", preserveAnimation := false
        hasOnNoVrm := true }
      true
      { loading := false, moving := true, targetX := 0, targetZ := 0
        speed := 9/10, stopDistance := 1/50, posX := 0, posY := 0, posZ := 0
        turn := { active := false, startAngle := 0, targetAngle := 0
                  duration := 0, elapsed := 0 }
        hasStatusSetter := false, hasMovingMessageFactory := false
        hasTurningMessageFactory := false, arrivalMessage := ""
        preserveAnimationOnFinish := false, vrm := some { posX := 0, posY := 0, posZ := 0, rotY := 0 }
        emitted := [], animationStopped := false } =
    ({ loading := false, moving := true, targetX := 0, targetZ := 0
       speed := 9/10, stopDistance := 1/50, posX := 0, posY := 0, posZ := 0
       turn := { active := false, startAngle := 0, targetAngle := 0
                 duration := 0, elapsed := 0 }
       hasStatusSetter := false, hasMovingMessageFactory := false
       hasTurningMessageFactory := false, arrivalMessage := ""
       preserveAnimationOnFinish := false, vrm := some { posX := 0, posY := 0, posZ := 0, rotY := 0 }
       emitted := [], animationStopped := false }, false, false) := by
  unfold beginMoveTo
  simp

/-- C6 witness: both precondition failures at concrete states. -/
theorem beginMoveTo_precondition_failures_witness :
    (beginMoveTo 2 3
      { hasStatusSetter := false, hasMovingMessageFactory := false
        hasTurningMessageFactory := false, arrivalMessage := none
        preparingMessage := none, preserveAnimation := false, hasOnNoVrm := false }
      true
      { loading := true, moving := false, targetX := 0, targetZ := 0
        speed := 9/10, stopDistance := 1/50, posX := 0, posY := 0, posZ := 0
        turn := { active := false, startAngle := 0, targetAngle := 0
                  duration := 0, elapsed := 0 }
        hasStatusSetter := false, hasMovingMessageFactory := false
        hasTurningMessageFactory := false, arrivalMessage := ""
        preserveAnimationOnFinish := false, vrm := none
        emitted := [], animationStopped := false } =
      ({ loading := true, moving := false, targetX := 0, targetZ := 0
         speed := 9/10, stopDistance := 1/50, posX := 0, posY := 0, posZ := 0
         turn := { active := false, startAngle := 0, targetAngle := 0
                   duration := 0, elapsed := 0 }
         hasStatusSetter := false, hasMovingMessageFactory := false
         hasTurningMessageFactory := false, arrivalMessage := ""
         preserveAnimationOnFinish := false, vrm := none
         emitted := [], animationStopped := false }, false, false)) ∧
    (beginMoveTo 2 3
      { hasStatusSetter := false, hasMovingMessageFactory := false
        hasTurningMessageFactory := false, arrivalMessage := none
        preparingMessage := none, preserveAnimation := false, hasOnNoVrm := true }
      true
      { loading := false, moving := false, targetX := 0, targetZ := 0
        speed := 9/10, stopDistance := 1/50, posX := 0, posY := 0, posZ := 0
        turn := { active := false, startAngle := 0, targetAngle := 0
                  duration := 0, elapsed := 0 }
        hasStatusSetter := false, hasMovingMessageFactory := false
        hasTurningMessageFactory := false, arrivalMessage := ""
        preserveAnimationOnFinish := false, vrm := none
        emitted := [], animationStopped := false } =
      ({ loading := false, moving := false, targetX := 0, targetZ := 0
         speed := 9/10, stopDistance := 1/50, posX := 0, posY := 0, posZ := 0
         turn := { active := false, startAngle := 0, targetAngle := 0
                   duration := 0, elapsed := 0 }
         hasStatusSetter := false, hasMovingMessageFactory := false
         hasTurningMessageFactory := false, arrivalMessage := ""
         preserveAnimationOnFinish := false, vrm := none
         emitted := [], animationStopped := false }, false, true)) :=
  ⟨beginMoveTo_precondition_failures.1 2 3 _ true _ (Or.inl rfl),
    beginMoveTo_precondition_failures.2 2 3 _ true _ rfl rfl rfl⟩

theorem dist_def (s : WalkState) :
    dist s = Real.sqrt ((s.targetX - s.posX) ^ 2 + (s.targetZ - s.posZ) ^ 2) := rfl

theorem dist_nonneg (s : WalkState) : 0 ≤ dist s := Real.sqrt_nonneg _

/-- Moving by `m ≤ D` along the unit direction to the target shrinks the
remaining distance to exactly `D - m`. -/
theorem shrink_dist (a b D m : ℝ) (hD : Real.sqrt (a ^ 2 + b ^ 2) = D)
    (hd0 : 0 < D) (hm : m ≤ D) :
    Real.sqrt ((a - a / D * m) ^ 2 + (b - b / D * m) ^ 2) = D - m := by
  have hDne : D ≠ 0 := ne_of_gt hd0
  have h1 : a - a / D * m = a * (1 - m / D) := by
    field_simp
    ring
  have h2 : b - b / D * m = b * (1 - m / D) := by
    field_simp
    ring
  have h3 : (a * (1 - m / D)) ^ 2 + (b * (1 - m / D)) ^ 2 =
      (1 - m / D) ^ 2 * (a ^ 2 + b ^ 2) := by ring
  have h4 : (0:ℝ) ≤ 1 - m / D := by
    have := (div_le_one hd0).mpr hm
    linarith
  rw [h1, h2, h3, Real.sqrt_mul (sq_nonneg _), Real.sqrt_sq_eq_abs, hD,
    abs_of_nonneg h4]
  field_simp

/-- Inside the stop distance, the movement step snaps to the target and
finishes: the claim's arrival-tick behavior. -/
theorem movementStep_snap (δ : ℝ) (s : WalkState) (h : dist s ≤ s.stopDistance) :
    ArrivedAt (movementStep δ s) s.targetX s.targetZ ∧
      core (movementStep δ s) = core s := by
  rw [dist_def] at h
  simp only [movementStep]
  rw [if_pos h]
  rcases hv : s.vrm with _ | v <;>
    cases hp : s.preserveAnimationOnFinish <;>
      cases hs : s.hasStatusSetter <;>
        simp [finishWalking, applyLogicalPosition, ArrivedAt, core, hv, hp, hs]

/-- Outside the stop distance, the movement step advances toward the target
and shrinks the remaining distance by `min dist (speed·δ)`, leaving the
moving flag, the turn state and the walk parameters untouched. -/
theorem movementStep_advance (δ : ℝ) (s : WalkState)
    (h : ¬ dist s ≤ s.stopDistance) (hd0 : 0 < dist s) :
    (movementStep δ s).moving = s.moving ∧
    (movementStep δ s).turn = s.turn ∧
    core (movementStep δ s) = core s ∧
    (movementStep δ s).vrm.isSome = s.vrm.isSome ∧
    dist (movementStep δ s) = dist s - min (dist s) (s.speed * δ) := by
  rw [dist_def] at h hd0
  have hkey := shrink_dist (s.targetX - s.posX) (s.targetZ - s.posZ)
    (Real.sqrt ((s.targetX - s.posX) ^ 2 + (s.targetZ - s.posZ) ^ 2))
    (min (Real.sqrt ((s.targetX - s.posX) ^ 2 + (s.targetZ - s.posZ) ^ 2)) (s.speed * δ))
    rfl hd0 (min_le_left _ _)
  have e1 : s.targetX - (s.posX + (s.targetX - s.posX) /
      Real.sqrt ((s.targetX - s.posX) ^ 2 + (s.targetZ - s.posZ) ^ 2) *
      min (Real.sqrt ((s.targetX - s.posX) ^ 2 + (s.targetZ - s.posZ) ^ 2)) (s.speed * δ)) =
      s.targetX - s.posX - (s.targetX - s.posX) /
      Real.sqrt ((s.targetX - s.posX) ^ 2 + (s.targetZ - s.posZ) ^ 2) *
      min (Real.sqrt ((s.targetX - s.posX) ^ 2 + (s.targetZ - s.posZ) ^ 2)) (s.speed * δ) := by
    ring
  have e2 : s.targetZ - (s.posZ + (s.targetZ - s.posZ) /
      Real.sqrt ((s.targetX - s.posX) ^ 2 + (s.targetZ - s.posZ) ^ 2) *
      min (Real.sqrt ((s.targetX - s.posX) ^ 2 + (s.targetZ - s.posZ) ^ 2)) (s.speed * δ)) =
      s.targetZ - s.posZ - (s.targetZ - s.posZ) /
      Real.sqrt ((s.targetX - s.posX) ^ 2 + (s.targetZ - s.posZ) ^ 2) *
      min (Real.sqrt ((s.targetX - s.posX) ^ 2 + (s.targetZ - s.posZ) ^ 2)) (s.speed * δ) := by
    ring
  simp only [movementStep]
  rw [if_neg h]
  rcases hv : s.vrm with _ | v <;>
    refine ⟨by simp [applyLogicalPosition, hv], by simp [applyLogicalPosition, hv],
      by simp [applyLogicalPosition, core, hv], by simp [applyLogicalPosition, hv], ?_⟩ <;>
    · rw [dist_def]
      simp only [applyLogicalPosition, hv, dist_def]
      rw [e1, e2]
      exact hkey

theorem numberEpsilon_pos : 0 < JsMath.numberEpsilon := by
  norm_num [JsMath.numberEpsilon]

theorem updateWalk_none (δ : ℝ) (s : WalkState) (hv : s.vrm = none) :
    updateWalk δ s = s := by
  simp [updateWalk, hv]

/-- Once stopped, a tick keeps the logical position and the stopped flag. -/
theorem updateWalk_stopped (δ : ℝ) (s : WalkState) (h : s.moving = false) :
    (updateWalk δ s).posX = s.posX ∧ (updateWalk δ s).posZ = s.posZ ∧
      (updateWalk δ s).moving = false := by
  rcases hv : s.vrm with _ | v
  · simp [updateWalk, hv, h]
  · simp [updateWalk, applyLogicalPosition, hv, h]

theorem iterate_stopped (δ : ℝ) (k : ℕ) (s : WalkState) (h : s.moving = false) :
    ((updateWalk δ)^[k] s).posX = s.posX ∧ ((updateWalk δ)^[k] s).posZ = s.posZ ∧
      ((updateWalk δ)^[k] s).moving = false := by
  induction k generalizing s with
  | zero => exact ⟨rfl, rfl, h⟩
  | succ k ih =>
    rw [Function.iterate_succ_apply]
    obtain ⟨h1, h2, h3⟩ := updateWalk_stopped δ s h
    obtain ⟨g1, g2, g3⟩ := ih (updateWalk δ s) h3
    exact ⟨g1.trans h1, g2.trans h2, g3⟩

/-- A moving tick with no turn pending is exactly one movement step. -/
theorem updateWalk_moving_noturn (δ : ℝ) (s : WalkState) (v : Vrm)
    (hv : s.vrm = some v) (hm : s.moving = true) (ht : s.turn.active = false) :
    updateWalk δ s = movementStep δ (applyLogicalPosition s) := by
  simp [updateWalk, applyLogicalPosition, hv, hm, ht]

theorem applyLogicalPosition_facts (s : WalkState) :
    (applyLogicalPosition s).posX = s.posX ∧ (applyLogicalPosition s).posZ = s.posZ ∧
    (applyLogicalPosition s).moving = s.moving ∧
    (applyLogicalPosition s).turn = s.turn ∧
    core (applyLogicalPosition s) = core s ∧
    (applyLogicalPosition s).vrm.isSome = s.vrm.isSome ∧
    dist (applyLogicalPosition s) = dist s := by
  rcases hv : s.vrm with _ | v <;> simp [applyLogicalPosition, core, dist_def, hv]

/-- A turning tick that does not reach the turn's duration only advances the
turn clock: position, distance and the walk parameters are untouched. -/
theorem updateWalk_turn_continue (δ : ℝ) (s : WalkState) (v : Vrm)
    (hv : s.vrm = some v) (hm : s.moving = true) (ht : s.turn.active = true)
    (hlt : s.turn.elapsed + δ < max s.turn.duration JsMath.numberEpsilon) :
    (updateWalk δ s).moving = true ∧ (updateWalk δ s).turn.active = true ∧
    (updateWalk δ s).turn.elapsed = s.turn.elapsed + δ ∧
    (updateWalk δ s).turn.duration = s.turn.duration ∧
    core (updateWalk δ s) = core s ∧
    (updateWalk δ s).posX = s.posX ∧ (updateWalk δ s).posZ = s.posZ ∧
    (updateWalk δ s).vrm.isSome = true ∧
    dist (updateWalk δ s) = dist s := by
  have hdpos : 0 < max s.turn.duration JsMath.numberEpsilon :=
    lt_of_lt_of_le numberEpsilon_pos (le_max_right _ _)
  have hx1 : (s.turn.elapsed + δ) / max s.turn.duration JsMath.numberEpsilon < 1 :=
    (div_lt_one hdpos).mpr hlt
  have hnp : ¬ (1:ℝ) ≤ min ((s.turn.elapsed + δ) / max s.turn.duration JsMath.numberEpsilon) 1 := by
    intro hcon
    exact absurd (le_trans hcon (min_le_left _ _)) (not_le.mpr hx1)
  simp [updateWalk, advanceTurn, applyLogicalPosition, hv, hm, ht, hnp, core, dist_def]

/-- A turning tick that reaches the turn's duration deactivates the turn and
runs the movement step in the same tick, on a state at the same position. -/
theorem updateWalk_turn_finish (δ : ℝ) (s : WalkState) (v : Vrm)
    (hv : s.vrm = some v) (hm : s.moving = true) (ht : s.turn.active = true)
    (hge : max s.turn.duration JsMath.numberEpsilon ≤ s.turn.elapsed + δ) :
    ∃ s2, updateWalk δ s = movementStep δ s2 ∧ s2.moving = true ∧
      s2.turn.active = false ∧ core s2 = core s ∧
      s2.posX = s.posX ∧ s2.posZ = s.posZ ∧ s2.vrm.isSome = true ∧
      dist s2 = dist s := by
  have hdpos : 0 < max s.turn.duration JsMath.numberEpsilon :=
    lt_of_lt_of_le numberEpsilon_pos (le_max_right _ _)
  have hx1 : (1:ℝ) ≤ (s.turn.elapsed + δ) / max s.turn.duration JsMath.numberEpsilon :=
    (one_le_div hdpos).mpr hge
  have hp1 : (1:ℝ) ≤ min ((s.turn.elapsed + δ) / max s.turn.duration JsMath.numberEpsilon) 1 :=
    le_min hx1 le_rfl
  refine ⟨emitMovingMsg (advanceTurn δ (applyLogicalPosition s)).1, ?_, ?_, ?_, ?_, ?_, ?_, ?_, ?_⟩ <;>
    simp [updateWalk, advanceTurn, applyLogicalPosition, emitMovingMsg, hv, hm, ht,
      hp1, core, dist_def] <;>
    split_ifs <;>
    simp [core, dist_def]

theorem core_fields {s t : WalkState} (h : core s = core t) :
    s.targetX = t.targetX ∧ s.targetZ = t.targetZ ∧ s.speed = t.speed ∧
      s.stopDistance = t.stopDistance := by
  simpa [core, Prod.ext_iff] using h

/-- Arrival is absorbing: further ticks keep the position and stopped flag. -/
theorem arrivedAt_iterate (δ : ℝ) (k : ℕ) (x z : ℝ) (t : WalkState)
    (h : ArrivedAt t x z) : ArrivedAt ((updateWalk δ)^[k] t) x z := by
  obtain ⟨h1, h2, h3⟩ := h
  obtain ⟨g1, g2, g3⟩ := iterate_stopped δ k t h3
  exact ⟨g1.trans h1, g2.trans h2, g3⟩

theorem arrived_forall_ge (δ : ℝ) (N : ℕ) (x z : ℝ) (s : WalkState)
    (h : ArrivedAt ((updateWalk δ)^[N] s) x z) :
    ∀ k, N ≤ k → ArrivedAt ((updateWalk δ)^[k] s) x z := by
  intro k hk
  have hk2 : k = (k - N) + N := (Nat.sub_add_cancel hk).symm
  rw [hk2, Function.iterate_add_apply]
  exact arrivedAt_iterate δ (k - N) x z _ h

/-- With no turn pending, `n + 2` ticks suffice once the remaining distance
is within `stopDistance + n · speed · δ`: each tick eats `speed · δ` of
distance, the arrival tick snaps to the target, one more tick observes the
stopped state. -/
theorem arrives_of_noturn (δ : ℝ) (hδ : 0 < δ) :
    ∀ (n : ℕ) (s : WalkState), s.vrm.isSome = true → s.moving = true →
      s.turn.active = false → 0 < s.speed → 0 ≤ s.stopDistance →
      dist s ≤ s.stopDistance + n * (s.speed * δ) →
      ArrivedAt ((updateWalk δ)^[n + 2] s) s.targetX s.targetZ := by
  intro n
  induction n with
  | zero =>
    intro s hv hm ht hsp hst hd
    obtain ⟨v, hv'⟩ := Option.isSome_iff_exists.mp hv
    have heq := updateWalk_moving_noturn δ s v hv' hm ht
    obtain ⟨a1, a2, a3, a4, a5, a6, a7⟩ := applyLogicalPosition_facts s
    obtain ⟨c1, c2, c3, c4⟩ := core_fields a5
    have hd' : dist (applyLogicalPosition s) ≤ (applyLogicalPosition s).stopDistance := by
      rw [a7, c4]
      simpa using hd
    have hsnap := movementStep_snap δ (applyLogicalPosition s) hd'
    have harr : ArrivedAt (updateWalk δ s) s.targetX s.targetZ := by
      rw [heq, ← c1, ← c2]
      exact hsnap.1
    have : (0 + 2 : ℕ) = 1 + 1 := rfl
    rw [this, Function.iterate_add_apply]
    exact arrivedAt_iterate δ 1 _ _ _ (by simpa using harr)
  | succ n ih =>
    intro s hv hm ht hsp hst hd
    obtain ⟨v, hv'⟩ := Option.isSome_iff_exists.mp hv
    have heq := updateWalk_moving_noturn δ s v hv' hm ht
    obtain ⟨a1, a2, a3, a4, a5, a6, a7⟩ := applyLogicalPosition_facts s
    obtain ⟨c1, c2, c3, c4⟩ := core_fields a5
    by_cases hclose : dist s ≤ s.stopDistance
    · have hd' : dist (applyLogicalPosition s) ≤ (applyLogicalPosition s).stopDistance := by
        rw [a7, c4]
        exact hclose
      have hsnap := movementStep_snap δ (applyLogicalPosition s) hd'
      have harr : ArrivedAt (updateWalk δ s) s.targetX s.targetZ := by
        rw [heq, ← c1, ← c2]
        exact hsnap.1
      have hsplit : n + 1 + 2 = (n + 2) + 1 := by ring
      rw [hsplit, Function.iterate_add_apply]
      exact arrivedAt_iterate δ (n + 2) _ _ _ (by simpa using harr)
    · have hd0 : 0 < dist s := lt_of_le_of_lt hst (lt_of_not_le hclose)
      have hclose' : ¬ dist (applyLogicalPosition s) ≤ (applyLogicalPosition s).stopDistance := by
        rw [a7, c4]
        exact hclose
      have hd0' : 0 < dist (applyLogicalPosition s) := by rw [a7]; exact hd0
      obtain ⟨m1, m2, m3, m4, m5⟩ :=
        movementStep_advance δ (applyLogicalPosition s) hclose' hd0'
      have htm : (updateWalk δ s).moving = true := by rw [heq, m1, a3]; exact hm
      have htt : (updateWalk δ s).turn.active = false := by rw [heq, m2, a4]; exact ht
      have htcore : core (updateWalk δ s) = core s := by rw [heq, m3, a5]
      obtain ⟨d1, d2, d3, d4⟩ := core_fields htcore
      have htv : (updateWalk δ s).vrm.isSome = true := by rw [heq, m4, a6]; exact hv
      have htd : dist (updateWalk δ s) = dist s - min (dist s) (s.speed * δ) := by
        rw [heq, m5, a7, c3]
      have hbound : dist (updateWalk δ s) ≤
          (updateWalk δ s).stopDistance + n * ((updateWalk δ s).speed * δ) := by
        rw [htd, d3, d4]
        rcases le_total (s.speed * δ) (dist s) with hle | hle
        · rw [min_eq_right hle]
          have hexp : ((n + 1 : ℕ) : ℝ) * (s.speed * δ) = n * (s.speed * δ) + s.speed * δ := by
            push_cast
            ring
          rw [hexp] at hd
          linarith
        · rw [min_eq_left hle]
          have h1 : (0:ℝ) ≤ n * (s.speed * δ) := by positivity
          linarith
      have hrec := ih (updateWalk δ s) htv htm htt (by rw [d3]; exact hsp)
        (by rw [d4]; exact hst) hbound
      have hsplit : n + 1 + 2 = (n + 2) + 1 := by ring
      rw [hsplit, Function.iterate_add_apply]
      rw [d1, d2] at hrec
      exact hrec

/-- While the pre-movement turn is active the position never changes; once
the turn clock can reach the duration within `m + 1` ticks, some tick
`j ≤ m + 1` leaves the controller either already arrived or moving with the
turn resolved and the distance not increased. -/
theorem turn_resolves (δ : ℝ) (hδ : 0 < δ) :
    ∀ (m : ℕ) (s : WalkState), s.vrm.isSome = true → s.moving = true →
      s.turn.active = true → 0 < s.speed → 0 ≤ s.stopDistance →
      max s.turn.duration JsMath.numberEpsilon ≤ s.turn.elapsed + (m + 1) * δ →
      ∃ j ≤ m + 1,
        core ((updateWalk δ)^[j] s) = core s ∧
        (ArrivedAt ((updateWalk δ)^[j] s) s.targetX s.targetZ ∨
          (((updateWalk δ)^[j] s).moving = true ∧
            ((updateWalk δ)^[j] s).turn.active = false ∧
            ((updateWalk δ)^[j] s).vrm.isSome = true ∧
            dist ((updateWalk δ)^[j] s) ≤ dist s)) := by
  have single : ∀ (s : WalkState), s.vrm.isSome = true → s.moving = true →
      s.turn.active = true → 0 < s.speed → 0 ≤ s.stopDistance →
      max s.turn.duration JsMath.numberEpsilon ≤ s.turn.elapsed + δ →
      core (updateWalk δ s) = core s ∧
      (ArrivedAt (updateWalk δ s) s.targetX s.targetZ ∨
        ((updateWalk δ s).moving = true ∧ (updateWalk δ s).turn.active = false ∧
          (updateWalk δ s).vrm.isSome = true ∧ dist (updateWalk δ s) ≤ dist s)) := by
    intro s hv hm ht hsp hst hge
    obtain ⟨v, hv'⟩ := Option.isSome_iff_exists.mp hv
    obtain ⟨s2, heq, e1, e2, e3, e4, e5, e6, e7⟩ :=
      updateWalk_turn_finish δ s v hv' hm ht hge
    obtain ⟨c1, c2, c3, c4⟩ := core_fields e3
    by_cases hclose : dist s2 ≤ s2.stopDistance
    · obtain ⟨harr, hcore⟩ := movementStep_snap δ s2 hclose
      refine ⟨by rw [heq, hcore, e3], Or.inl ?_⟩
      rw [heq, ← c1, ← c2]
      exact harr
    · have hd0 : 0 < dist s2 :=
        lt_of_le_of_lt (by rw [c4]; exact hst) (lt_of_not_le hclose)
      obtain ⟨m1, m2, m3, m4, m5⟩ := movementStep_advance δ s2 hclose hd0
      refine ⟨by rw [heq, m3, e3], Or.inr ⟨?_, ?_, ?_, ?_⟩⟩
      · rw [heq, m1, e1]
      · rw [heq, m2, e2]
      · rw [heq, m4, e6]
      · have hsp2 : 0 < s2.speed := by rw [c3]; exact hsp
        have hmin : 0 ≤ min (dist s2) (s2.speed * δ) :=
          le_min (dist_nonneg s2) (by positivity)
        rw [heq, m5, e7]
        rw [e7] at hmin
        linarith
  intro m
  induction m with
  | zero =>
    intro s hv hm ht hsp hst hge
    have h1 := single s hv hm ht hsp hst (by push_cast at hge; linarith)
    exact ⟨1, le_refl 1, by simpa using h1⟩
  | succ m ih =>
    intro s hv hm ht hsp hst hge
    by_cases hfin : max s.turn.duration JsMath.numberEpsilon ≤ s.turn.elapsed + δ
    · have h1 := single s hv hm ht hsp hst hfin
      exact ⟨1, by omega, by simpa using h1⟩
    · have hlt : s.turn.elapsed + δ < max s.turn.duration JsMath.numberEpsilon :=
        lt_of_not_le hfin
      obtain ⟨v, hv'⟩ := Option.isSome_iff_exists.mp hv
      obtain ⟨u1, u2, u3, u4, u5, u6, u7, u8, u9⟩ :=
        updateWalk_turn_continue δ s v hv' hm ht hlt
      obtain ⟨c1, c2, c3, c4⟩ := core_fields u5
      have hge2 : max (updateWalk δ s).turn.duration JsMath.numberEpsilon ≤
          (updateWalk δ s).turn.elapsed + (m + 1) * δ := by
        rw [u3, u4]
        push_cast at hge ⊢
        linarith
      obtain ⟨j, hj, hcore, hdich⟩ := ih (updateWalk δ s) u8 u1 u2
        (by rw [c3]; exact hsp) (by rw [c4]; exact hst) hge2
      refine ⟨j + 1, by omega, ?_, ?_⟩
      · rw [Function.iterate_succ_apply]
        exact hcore.trans u5
      · rw [Function.iterate_succ_apply]
        rcases hdich with harr | ⟨g1, g2, g3, g4⟩
        · left
          rw [c1, c2] at harr
          exact harr
        · right
          exact ⟨g1, g2, g3, le_trans g4 (le_of_eq u9)⟩

@[simp]
theorem prepareTurn_moving (s : WalkState) :
    (prepareTurnForCurrentTarget s).moving = s.moving := by
  unfold prepareTurnForCurrentTarget beginTurnTowards
  rcases hv : s.vrm with _ | v <;> simp [hv] <;> split_ifs <;> simp

@[simp]
theorem prepareTurn_targetX (s : WalkState) :
    (prepareTurnForCurrentTarget s).targetX = s.targetX := by
  unfold prepareTurnForCurrentTarget beginTurnTowards
  rcases hv : s.vrm with _ | v <;> simp [hv] <;> split_ifs <;> simp

@[simp]
theorem prepareTurn_targetZ (s : WalkState) :
    (prepareTurnForCurrentTarget s).targetZ = s.targetZ := by
  unfold prepareTurnForCurrentTarget beginTurnTowards
  rcases hv : s.vrm with _ | v <;> simp [hv] <;> split_ifs <;> simp

@[simp]
theorem prepareTurn_speed (s : WalkState) :
    (prepareTurnForCurrentTarget s).speed = s.speed := by
  unfold prepareTurnForCurrentTarget beginTurnTowards
  rcases hv : s.vrm with _ | v <;> simp [hv] <;> split_ifs <;> simp

@[simp]
theorem prepareTurn_stopDistance (s : WalkState) :
    (prepareTurnForCurrentTarget s).stopDistance = s.stopDistance := by
  unfold prepareTurnForCurrentTarget beginTurnTowards
  rcases hv : s.vrm with _ | v <;> simp [hv] <;> split_ifs <;> simp

@[simp]
theorem prepareTurn_vrm (s : WalkState) :
    (prepareTurnForCurrentTarget s).vrm = s.vrm := by
  unfold prepareTurnForCurrentTarget beginTurnTowards
  rcases hv : s.vrm with _ | v <;> simp [hv] <;> split_ifs <;> simp [hv]

@[simp]
theorem emitPreparing_fields (opts : MoveOptions) (s : WalkState) :
    (emitPreparing opts s).moving = s.moving ∧
    (emitPreparing opts s).targetX = s.targetX ∧
    (emitPreparing opts s).targetZ = s.targetZ ∧
    (emitPreparing opts s).speed = s.speed ∧
    (emitPreparing opts s).stopDistance = s.stopDistance ∧
    (emitPreparing opts s).vrm = s.vrm := by
  unfold emitPreparing
  cases hp : opts.preparingMessage <;> simp [hp] <;> split_ifs <;> simp

@[simp]
theorem emitMoveStart_fields (s : WalkState) :
    (emitMoveStart s).moving = s.moving ∧
    (emitMoveStart s).targetX = s.targetX ∧
    (emitMoveStart s).targetZ = s.targetZ ∧
    (emitMoveStart s).speed = s.speed ∧
    (emitMoveStart s).stopDistance = s.stopDistance ∧
    (emitMoveStart s).vrm = s.vrm := by
  unfold emitMoveStart
  split_ifs <;> simp

/-- What a successful `beginMoveTo` guarantees: the controller is moving
toward exactly the requested target, the speed and stop-distance parameters
are untouched, and the avatar is still present. -/
theorem beginMoveTo_success (x z : ℝ) (opts : MoveOptions) (clipOk cb : Bool)
    (s s₁ : WalkState) (h : beginMoveTo x z opts clipOk s = (s₁, true, cb)) :
    s₁.moving = true ∧ s₁.targetX = x ∧ s₁.targetZ = z ∧
      s₁.speed = s.speed ∧ s₁.stopDistance = s.stopDistance ∧
      s₁.vrm.isSome = true := by
  unfold beginMoveTo at h
  cases hl : (s.loading || s.moving) with
  | true =>
    rw [hl] at h
    simp at h
  | false =>
    rw [hl] at h
    simp only [Bool.false_eq_true, if_false] at h
    rcases hv : s.vrm with _ | v
    · rw [hv] at h
      simp at h
    · rw [hv] at h
      cases hc : clipOk with
      | false =>
        rw [hc] at h
        simp only [Bool.false_eq_true, if_false, Prod.mk.injEq] at h
        exact absurd h.2.1 (by simp)
      | true =>
        rw [hc] at h
        simp only [if_true, Prod.mk.injEq] at h
        obtain ⟨h1, _, _⟩ := h
        subst h1
        simp [emitMoveStart_fields, emitPreparing_fields, startMoving,
          moveRequestState, hv]

/-- C2: after a successful `beginMoveTo(x, z)`, once enough update ticks
elapse (covering the pre-movement turn and the path), the locomotion
controller's logical position equals the target (x, z) exactly — the
arrival tick assigns the target coordinates when the remaining distance is
within the stop distance — and `isMoving()` returns false, and this remains
so on every later tick. -/
theorem beginMoveTo_then_arrives_exactly (x z δ : ℝ) (opts : MoveOptions)
    (clipOk cb : Bool) (s s₁ : WalkState)
    (h : beginMoveTo x z opts clipOk s = (s₁, true, cb))
    (hsp : 0 < s.speed) (hst : 0 ≤ s.stopDistance) (hδ : 0 < δ) :
    ∃ N, ∀ k, N ≤ k →
      ((updateWalk δ)^[k] s₁).posX = x ∧ ((updateWalk δ)^[k] s₁).posZ = z ∧
        isMoving ((updateWalk δ)^[k] s₁) = false := by
  obtain ⟨hm, htx, htz, hspe, hste, hv⟩ := beginMoveTo_success x z opts clipOk cb s s₁ h
  have hsp1 : 0 < s₁.speed := hspe ▸ hsp
  have hst1 : 0 ≤ s₁.stopDistance := hste ▸ hst
  have noturn : ∀ t : WalkState, t.vrm.isSome = true → t.moving = true →
      t.turn.active = false → 0 < t.speed → 0 ≤ t.stopDistance →
      ∃ N, ArrivedAt ((updateWalk δ)^[N] t) t.targetX t.targetZ := by
    intro t tv tm tt tsp tst
    obtain ⟨n, hn⟩ := exists_nat_gt (dist t / (t.speed * δ))
    have hprod : 0 < t.speed * δ := by positivity
    have hb : dist t ≤ t.stopDistance + n * (t.speed * δ) := by
      have h1 : dist t < n * (t.speed * δ) := by
        have h2 : dist t = dist t / (t.speed * δ) * (t.speed * δ) := by
          field_simp
        rw [h2]
        exact mul_lt_mul_of_pos_right hn hprod
      linarith
    exact ⟨n + 2, arrives_of_noturn δ hδ n t tv tm tt tsp tst hb⟩
  have toGoal : ∀ (N : ℕ), ArrivedAt ((updateWalk δ)^[N] s₁) x z →
      ∃ N, ∀ k, N ≤ k →
        ((updateWalk δ)^[k] s₁).posX = x ∧ ((updateWalk δ)^[k] s₁).posZ = z ∧
          isMoving ((updateWalk δ)^[k] s₁) = false := by
    intro N harr
    refine ⟨N, fun k hk => ?_⟩
    obtain ⟨p1, p2, p3⟩ := arrived_forall_ge δ N x z s₁ harr k hk
    exact ⟨p1, p2, p3⟩
  by_cases ht : s₁.turn.active = true
  · obtain ⟨m, hm2⟩ := exists_nat_gt
      ((max s₁.turn.duration JsMath.numberEpsilon - s₁.turn.elapsed) / δ)
    have hbound : max s₁.turn.duration JsMath.numberEpsilon ≤
        s₁.turn.elapsed + (m + 1) * δ := by
      have h1 : max s₁.turn.duration JsMath.numberEpsilon - s₁.turn.elapsed < m * δ := by
        have h2 : max s₁.turn.duration JsMath.numberEpsilon - s₁.turn.elapsed =
            (max s₁.turn.duration JsMath.numberEpsilon - s₁.turn.elapsed) / δ * δ := by
          field_simp
        rw [h2]
        exact mul_lt_mul_of_pos_right hm2 hδ
      have h3 : (m:ℝ) * δ ≤ (m + 1) * δ := by nlinarith
      push_cast
      linarith
    obtain ⟨j, hj, hcore, hdich⟩ := turn_resolves δ hδ m s₁ hv hm ht hsp1 hst1 hbound
    obtain ⟨c1, c2, c3, c4⟩ := core_fields hcore
    rcases hdich with harr | ⟨g1, g2, g3, g4⟩
    · rw [htx, htz] at harr
      exact toGoal j harr
    · obtain ⟨N2, harr2⟩ := noturn ((updateWalk δ)^[j] s₁) g3 g1 g2
        (by rw [c3]; exact hsp1) (by rw [c4]; exact hst1)
      rw [c1, htx, c2, htz, ← Function.iterate_add_apply] at harr2
      exact toGoal (N2 + j) harr2
  · have ht' : s₁.turn.active = false := Bool.eq_false_iff.mpr ht
    obtain ⟨N, harr⟩ := noturn s₁ hv hm ht' hsp1 hst1
    rw [htx, htz] at harr
    exact toGoal N harr

/-- A concrete idle controller state at the origin with an avatar loaded. -/
noncomputable def cwStart : WalkState :=
  { loading := false, moving := false, targetX := 0, targetZ := 0
    speed := 9/10, stopDistance := 1/50, posX := 0, posY := 0, posZ := 0
    turn := { active := false, startAngle := 0, targetAngle := 0, duration := 0, elapsed := 0 }
    hasStatusSetter := false, hasMovingMessageFactory := false
    hasTurningMessageFactory := false, arrivalMessage := "default-arrival"
    preserveAnimationOnFinish := false, vrm := some { posX := 0, posY := 0, posZ := 0, rotY := 0 }
    emitted := [], animationStopped := false }

/-- The options bag with no sinks attached. -/
def cwOpts : MoveOptions :=
  { hasStatusSetter := false, hasMovingMessageFactory := false
    hasTurningMessageFactory := false, arrivalMessage := none
    preparingMessage := none, preserveAnimation := false, hasOnNoVrm := false }

/-- The state `beginMoveTo (1/200) 0` produces from `cwStart`. -/
noncomputable def cwAfter : WalkState :=
  { cwStart with moving := true, targetX := 1/200, targetZ := 0 }

theorem beginMoveTo_then_arrives_exactly_witness :
    ∃ N, ∀ k, N ≤ k →
      ((updateWalk (1/60))^[k] cwAfter).posX = 1/200 ∧
      ((updateWalk (1/60))^[k] cwAfter).posZ = 0 ∧
      isMoving ((updateWalk (1/60))^[k] cwAfter) = false :=
  beginMoveTo_then_arrives_exactly (1/200) 0 (1/60) cwOpts true false cwStart cwAfter
    (by
      norm_num [beginMoveTo, moveRequestState, emitPreparing, startMoving,
        prepareTurnForCurrentTarget, emitMoveStart, cwStart, cwOpts, cwAfter])
    (by norm_num [cwStart]) (by norm_num [cwStart]) (by norm_num)

end Walk

/-! ## Gaze: `createLookAtPlayerMenu` (src/unnamed/part_001, lines 214-399)

The look-at-player controller.  `stage`/camera availability is modelled by
`player : Option (ℝ × ℝ)` (the head position sample, planar coordinates);
the avatar by `vrm : Option GazeVrm`; `vrm.lookAt` by `hasLookAt`.  The
`turnState` record keeps the body-turn animation plus the pending
`resumeSource` string, exactly as in the source. -/

namespace Gaze

open JsMath

noncomputable section

/-- `BODY_TURN_THRESHOLD = THREE.MathUtils.degToRad(90)` (line 205). -/
def BODY_TURN_THRESHOLD : ℝ := degToRad 90

/-- `BODY_TURN_MIN_DURATION = 0.35` (line 206). -/
def BODY_TURN_MIN_DURATION : ℝ := 35 / 100

/-- `BODY_TURN_MAX_DURATION = 0.8` (line 207). -/
def BODY_TURN_MAX_DURATION : ℝ := 8 / 10

/-- `BODY_TURN_DURATION_PER_RAD = 0.35` (line 208). -/
def BODY_TURN_DURATION_PER_RAD : ℝ := 35 / 100

/-- `MIN_DISTANCE_SQ = 1e-4` (line 204). -/
def MIN_DISTANCE_SQ : ℝ := 1 / 10000

/-- The avatar as this controller reads it: world position (planar), yaw,
and whether `vrm.lookAt` exists. -/
structure GazeVrm where
  posX : ℝ
  posZ : ℝ
  rotY : ℝ
  hasLookAt : Bool

/-- `state.turnState` (lines 223-230). -/
structure GTurn where
  active : Bool
  startAngle : ℝ
  targetAngle : ℝ
  duration : ℝ
  elapsed : ℝ
  resumeSource : String

/-- The controller's world: the avatar, the player head sample (none when
stage/renderer/camera is unavailable), the turn state, the cached
`lastPlayerPosition`, and the observable gaze target. -/
structure GWorld where
  vrm : Option GazeVrm
  player : Option (ℝ × ℝ)
  turn : GTurn
  lastPlayerX : ℝ
  lastPlayerZ : ℝ
  gazeTargetX : ℝ
  gazeTargetZ : ℝ
  gazeSet : Bool

/-- `beginBodyTurn(desiredAngle, source)` (lines 304-329); `true` when a
turn was started. -/
def beginBodyTurn (desiredAngle : ℝ) (source : String) (w : GWorld) :
    GWorld × Bool :=
  match w.vrm with
  | none => ({ w with turn := { w.turn with active := false } }, false)
  | some v =>
    let currentAngle := normalizeRadians v.rotY
    let delta := normalizeRadians (desiredAngle - currentAngle)
    if |delta| < BODY_TURN_THRESHOLD then
      ({ w with turn := { w.turn with active := false, elapsed := 0 } }, false)
    else
      let duration := clampR (|delta| * BODY_TURN_DURATION_PER_RAD)
        BODY_TURN_MIN_DURATION BODY_TURN_MAX_DURATION
      ({ w with turn :=
          { active := true, startAngle := currentAngle
            targetAngle := currentAngle + delta, duration := duration
            elapsed := 0, resumeSource := source } }, true)

/-- `updateVrmGazeTarget(playerPosition)` (lines 263-273). -/
def updateVrmGazeTarget (p : ℝ × ℝ) (w : GWorld) : GWorld × Bool :=
  match w.vrm with
  | none => (w, false)
  | some v =>
    if v.hasLookAt then
      ({ w with gazeTargetX := p.1, gazeTargetZ := p.2, gazeSet := true }, true)
    else (w, false)

/-- `lookAtPlayer({source})` (lines 368-399).  The early guards (no avatar,
no player sample, player too close) run BEFORE the busy-turn check; the
sample also refreshes `lastPlayerPosition`. -/
def lookAtPlayer (source : String) (w : GWorld) : GWorld × Bool :=
  match w.vrm with
  | none => (w, false)
  | some v =>
    match w.player with
    | none => (w, false)
    | some p =>
      let w1 := { w with lastPlayerX := p.1, lastPlayerZ := p.2 }
      let dx := p.1 - v.posX
      let dz := p.2 - v.posZ
      if dx * dx + dz * dz ≤ MIN_DISTANCE_SQ then (w1, false)
      else
        let desiredYaw := jsAtan2 dx dz
        if w1.turn.active then
          ({ w1 with turn := { w1.turn with resumeSource := source } }, false)
        else
          let currentAngle := normalizeRadians v.rotY
          let delta := normalizeRadians (desiredYaw - currentAngle)
          if BODY_TURN_THRESHOLD ≤ |delta| then
            let r := beginBodyTurn desiredYaw source w1
            if r.2 then (r.1, false) else updateVrmGazeTarget p r.1
          else updateVrmGazeTarget p w1

/-- `advanceBodyTurn(delta)` (lines 334-363). -/
def advanceBodyTurn (δ : ℝ) (w : GWorld) : GWorld :=
  if w.turn.active = false then w
  else
    match w.vrm with
    | none => { w with turn := { w.turn with active := false } }
    | some v =>
      let elapsed := w.turn.elapsed + δ
      let progress := min (elapsed / max w.turn.duration numberEpsilon) 1
      let eased := smoothstep progress 0 1
      let nextAngle := lerp w.turn.startAngle w.turn.targetAngle eased
      let w2 := { w with vrm := some { v with rotY := nextAngle }
                         turn := { w.turn with elapsed := elapsed } }
      if 1 ≤ progress then
        let resume := if w.turn.resumeSource = "" then "auto" else w.turn.resumeSource
        (lookAtPlayer resume
          { w2 with turn := { w2.turn with active := false, resumeSource := "auto" } }).1
      else w2

end

/-- A concrete avatar at the origin facing forward, with a lookAt module. -/
noncomputable def gwV : GazeVrm := { posX := 0, posZ := 0, rotY := 0, hasLookAt := true }

/-- A body turn in flight with the default resume source. -/
noncomputable def gwTurnBusy : GTurn :=
  { active := true, startAngle := 0, targetAngle := 2, duration := 1/2
    elapsed := 0, resumeSource := "auto" }

/-- A world mid-turn with the player standing one metre away. -/
noncomputable def gwBusy : GWorld :=
  { vrm := some gwV, player := some (1, 0), turn := gwTurnBusy
    lastPlayerX := 0, lastPlayerZ := 0
    gazeTargetX := 0, gazeTargetZ := 0, gazeSet := false }

/-- The same world with the player head sample unavailable. -/
noncomputable def gwNoPlayer : GWorld := { gwBusy with player := none }

/-- C5 counterexample: `lookAtPlayer({source:"manual"})` called while a body
turn is active but the player head sample is unavailable returns false
WITHOUT recording "manual" as the pending resume source — the no-player
guard (line 374-377) runs before the busy-turn check (line 383-386), so the
resume source stays "auto".  The claim's "records the given source" clause
therefore needs availability preconditions. -/
theorem lookAtPlayer_busy_without_player_drops_source :
    gwNoPlayer.turn.active = true ∧
    lookAtPlayer ("manual") gwNoPlayer = (gwNoPlayer, false) ∧
    gwNoPlayer.turn.resumeSource = "auto" ∧ ("auto" : String) ≠ "manual" := by
  refine ⟨rfl, ?_, rfl, by decide⟩
  simp [lookAtPlayer, gwNoPlayer, gwBusy]

/-- C5 (amended): when the avatar and a player head sample are present and
the player is beyond the minimum distance, a `lookAtPlayer({source})` call
made while the body turn is active starts no second turn — the whole turn
record except `resumeSource` is unchanged — records `source` as the pending
resume source, and returns false; and on the update tick where the turn's
progress reaches 1, `advanceBodyTurn` sets the yaw to the target angle,
clears the active flag, resets the stored source to "auto", and re-invokes
`lookAtPlayer` with the most recently recorded source. -/
theorem gaze_busy_defers_and_resumes :
    (∀ (w : GWorld) (v : GazeVrm) (p : ℝ × ℝ) (source : String),
        w.vrm = some v → w.player = some p → w.turn.active = true →
        MIN_DISTANCE_SQ <
          (p.1 - v.posX) * (p.1 - v.posX) + (p.2 - v.posZ) * (p.2 - v.posZ) →
        lookAtPlayer source w =
          ({ w with lastPlayerX := p.1, lastPlayerZ := p.2
                    turn := { w.turn with resumeSource := source } }, false)) ∧
    (∀ (δ : ℝ) (w : GWorld) (v : GazeVrm),
        w.vrm = some v → w.turn.active = true →
        1 ≤ (w.turn.elapsed + δ) / max w.turn.duration numberEpsilon →
        w.turn.resumeSource ≠ "" →
        advanceBodyTurn δ w =
          (lookAtPlayer w.turn.resumeSource
            { w with
                vrm := some { v with rotY := w.turn.targetAngle }
                turn := { w.turn with
                            elapsed := w.turn.elapsed + δ
                            active := false
                            resumeSource := "auto" } }).1) := by
  constructor
  · intro w v p source hv hp hact hd
    simp [lookAtPlayer, hv, hp, hact, not_le.mpr hd]
  · intro δ w v hv hact hdone hsrc
    have hmin : min ((w.turn.elapsed + δ) / max w.turn.duration numberEpsilon) 1 = 1 :=
      min_eq_right hdone
    have heas : smoothstep 1 0 1 = 1 := by norm_num [smoothstep]
    have hlerp : lerp w.turn.startAngle w.turn.targetAngle 1 = w.turn.targetAngle := by
      simp [lerp]
    simp [advanceBodyTurn, hv, hact, hmin, heas, hlerp, hsrc]

/-- C5 amended witness: the busy-call clause at a concrete mid-turn world
with the player one metre away on the x axis. -/
theorem gaze_busy_defers_and_resumes_witness :
    lookAtPlayer ("manual") gwBusy =
      ({ gwBusy with lastPlayerX := 1, lastPlayerZ := 0
                     turn := { gwBusy.turn with resumeSource := "manual" } }, false) :=
  gaze_busy_defers_and_resumes.1 gwBusy gwV (1, 0) "manual" rfl rfl rfl
    (by norm_num [MIN_DISTANCE_SQ, gwV])

end Gaze

/-! ## LookDown: `createLookDownAction` (src/src/menus/actions/lookDownAction.js)

The neck-tilt controller's target state.  Bone application (`applyPose`) is
not needed for the claims below; `applyManual`'s log call is side-effect
only.  `Number.isFinite(levelDegrees)` is true for every real number in
this idealisation (IEEE NaN/Infinity have no counterpart in ℝ). -/

namespace LookDown

open JsMath

noncomputable section

/-- `MANUAL_LOOK_DOWN_MAX_RADIANS = degToRad(45)` (line 13). -/
def MANUAL_LOOK_DOWN_MAX_RADIANS : ℝ := degToRad 45

/-- `LOOK_DOWN_EPSILON = degToRad(0.5)` (line 18). -/
def LOOK_DOWN_EPSILON : ℝ := degToRad (1/2)

/-- The `state` record (lines 21-26) minus the bone-offset map. -/
structure LDState where
  enabled : Bool
  targetAngleRad : ℝ
  mode : String

/-- `setTarget(angleRad, mode)` (lines 67-73). -/
def setTarget (angleRad : ℝ) (mode : String) (st : LDState) : LDState :=
  let clamped := clampR angleRad (-MANUAL_LOOK_DOWN_MAX_RADIANS) MANUAL_LOOK_DOWN_MAX_RADIANS
  { st with targetAngleRad := clamped
            enabled := if LOOK_DOWN_EPSILON < |clamped| then true else false
            mode := mode }

/-- `applyManual(levelDegrees)` (lines 133-151): returns the new state and
the `{success, angleDeg, reason}` result. -/
def applyManual (levelDegrees : ℝ) (st : LDState) : LDState × Bool × ℝ × String :=
  let safeDegrees := clampR levelDegrees (-45) 45
  let angleRad := degToRad safeDegrees
  let st2 := setTarget angleRad "manual" st
  (st2, true, radToDeg st2.targetAngleRad, "manual")

end

/-- `degToRad 45` is positive. -/
theorem maxRad_pos : 0 < MANUAL_LOOK_DOWN_MAX_RADIANS := by
  have := Real.pi_pos
  unfold MANUAL_LOOK_DOWN_MAX_RADIANS degToRad
  positivity

/-- C7: `setTarget` clamps the stored target to [-45°, +45°] in radians and
sets the enabled flag exactly when the clamped magnitude exceeds the 0.5°
epsilon; consequently `applyManual(d)` for any requested degree value
d ≥ 45 succeeds, stores exactly +45° in radians, and reports an applied
angle of exactly 45.0 degrees. -/
theorem setTarget_clamps_and_applyManual_caps :
    (∀ (a : ℝ) (mode : String) (st : LDState),
        -MANUAL_LOOK_DOWN_MAX_RADIANS ≤ (setTarget a mode st).targetAngleRad ∧
        (setTarget a mode st).targetAngleRad ≤ MANUAL_LOOK_DOWN_MAX_RADIANS ∧
        ((setTarget a mode st).enabled = true ↔
          LOOK_DOWN_EPSILON < |(setTarget a mode st).targetAngleRad|)) ∧
    (∀ (d : ℝ) (st : LDState), 45 ≤ d →
        (applyManual d st).2.1 = true ∧
        (applyManual d st).2.2.1 = 45 ∧
        (applyManual d st).1.targetAngleRad = MANUAL_LOOK_DOWN_MAX_RADIANS ∧
        (applyManual d st).1.enabled = true) := by
  have hmax := maxRad_pos
  constructor
  · intro a mode st
    refine ⟨le_max_left _ _, ?_, ?_⟩
    · exact max_le (by linarith) (min_le_left _ _)
    · simp only [setTarget, clampR]
      split_ifs with h
      · simpa using h
      · simpa using h
  · intro d st hd
    have hsafe : clampR d (-45) 45 = 45 := by
      unfold clampR
      rw [min_eq_left hd, max_eq_right (by norm_num)]
    have hclamp : clampR (degToRad 45) (-MANUAL_LOOK_DOWN_MAX_RADIANS)
        MANUAL_LOOK_DOWN_MAX_RADIANS = MANUAL_LOOK_DOWN_MAX_RADIANS := by
      have h45 : (0:ℝ) < degToRad 45 := maxRad_pos
      unfold clampR MANUAL_LOOK_DOWN_MAX_RADIANS
      rw [min_self, max_eq_right (by linarith)]
    have htgt : (applyManual d st).1.targetAngleRad = MANUAL_LOOK_DOWN_MAX_RADIANS := by
      simp only [applyManual, setTarget, hsafe, hclamp]
    have heps : LOOK_DOWN_EPSILON < |MANUAL_LOOK_DOWN_MAX_RADIANS| := by
      rw [abs_of_pos hmax]
      unfold LOOK_DOWN_EPSILON MANUAL_LOOK_DOWN_MAX_RADIANS degToRad
      have hp : (0:ℝ) < Real.pi / 180 := by positivity
      nlinarith [hp]
    refine ⟨rfl, ?_, htgt, ?_⟩
    · show radToDeg (setTarget (degToRad (clampR d (-45) 45)) "manual" st).targetAngleRad = 45
      simp only [setTarget, hsafe, hclamp]
      unfold radToDeg MANUAL_LOOK_DOWN_MAX_RADIANS degToRad
      field_simp
    · show (setTarget (degToRad (clampR d (-45) 45)) "manual" st).enabled = true
      simp only [setTarget, hsafe, hclamp]
      rw [if_pos heps]

/-- A neutral neck-tilt state. -/
noncomputable def ldInit : LDState := { enabled := false, targetAngleRad := 0, mode := "manual" }

/-- C7 witness: requesting 50° applies exactly 45.0° with success. -/
theorem setTarget_clamps_and_applyManual_caps_witness :
    (applyManual 50 ldInit).2.1 = true ∧
    (applyManual 50 ldInit).2.2.1 = 45 ∧
    (applyManual 50 ldInit).1.targetAngleRad = MANUAL_LOOK_DOWN_MAX_RADIANS ∧
    (applyManual 50 ldInit).1.enabled = true :=
  setTarget_clamps_and_applyManual_caps.2 50 ldInit (by norm_num)

end LookDown

